import Mathlib

/-
  Verification of the SPIR-V module container (SPIRVModule.cpp) against its
  natural-language specification.

  The development is a shallow embedding of the module container of
  src/lib/SPIRV/libSPIRV/SPIRVModule.cpp:
    * entity registry (addEntry / replaceForward / exist / getEntry),
    * the monotone id allocator (getId),
    * deduplication caches (addIntegerType, getLiteralAsConstant),
    * the capability / extension gate (addCapability, addExtension,
      setMemoryModel),
    * reference erasure (eraseReferencesOfInst),
    * the binary header validation of parseSPIRV,
    * the dependency-respecting topological sort (class TopologicalSort)
      used by the serializer.

  Entities live in an arena (a list); operand references are arena indices
  (mirroring the C++ object graph, where operands are entity pointers).
  Machine ids (SPIRVId = uint32_t) are modelled as Nat: the allocator and the
  registry never perform arithmetic that can overflow in the scenarios the
  claims quantify over, and no claim depends on wrap-around behaviour.

  Per-entity virtual methods that live outside the given sources
  (SPIRVEntry.h/.cpp, SPIRVEnum.h, LLVMSPIRVOpts.h) are modelled from the
  spec; each such definition carries a doc comment starting with
  "Modelled from the spec:".
-/

/-- Operation kinds (a subset of spv::Op restricted to the opcodes the claims
touch).  Numeric ranges of SPIRVOpCode.h are reflected by the predicates
`isTypeOpCode` / `isConstantOpCode` below; in particular `OpTypeForwardPointer`
(39) lies outside the `OpTypeVoid..OpTypePipe` (19..38) range and is *not* a
type opcode, and `OpForward` is the internal placeholder opcode
(internal::OpForward). -/
inductive Op where
  | OpTypeVoid | OpTypeBool | OpTypeInt | OpTypeFloat | OpTypeVector
  | OpTypeArray | OpTypeStruct | OpTypePointer | OpTypeFunction | OpTypePipe
  | OpTypeForwardPointer | OpTypeUntypedPointerKHR
  | OpConstantTrue | OpConstantFalse | OpConstant | OpConstantComposite
  | OpConstantNull | OpSpecConstantOp | OpUndef
  | OpVariable | OpUntypedVariableKHR
  | OpFunction | OpString | OpMemberName | OpLine
  | OpDecorate | OpGroupDecorate | OpEntryPoint | OpForward | OpNop
  deriving DecidableEq, Repr

/-- `isTypeOpCode` of SPIRVOpCode.h restricted to the opcodes of `Op`:
true exactly for the members of the numeric range OpTypeVoid(19)..OpTypePipe(38)
present here, plus OpTypeUntypedPointerKHR (listed explicitly in the source).
OpTypeForwardPointer (39) is outside the range. -/
def isTypeOpCode : Op → Bool
  | Op.OpTypeVoid | Op.OpTypeBool | Op.OpTypeInt | Op.OpTypeFloat
  | Op.OpTypeVector | Op.OpTypeArray | Op.OpTypeStruct | Op.OpTypePointer
  | Op.OpTypeFunction | Op.OpTypePipe | Op.OpTypeUntypedPointerKHR => true
  | _ => false

/-- `isConstantOpCode` of SPIRVOpCode.h restricted to `Op`: the numeric range
OpConstantTrue(41)..OpSpecConstantOp(52) plus OpUndef. -/
def isConstantOpCode : Op → Bool
  | Op.OpConstantTrue | Op.OpConstantFalse | Op.OpConstant
  | Op.OpConstantComposite | Op.OpConstantNull | Op.OpSpecConstantOp
  | Op.OpUndef => true
  | _ => false

/-- The pointer-opcode test used by TopologicalSort::visit when breaking a
cycle: `E->getOpCode() == OpTypePointer || E->getOpCode() ==
OpTypeUntypedPointerKHR`. -/
def isPtrOpcode : Op → Bool
  | Op.OpTypePointer | Op.OpTypeUntypedPointerKHR => true
  | _ => false

/-- Capability kinds (subset). -/
inductive Cap where
  | Kernel | Addresses | Linkage | Int8 | OtherCap
  deriving DecidableEq, Repr

/-- Extension identifiers (subset of ExtensionID). -/
inductive ExtId where
  | SPV_EXT_shader_atomic_float16_add
  | SPV_EXT_shader_atomic_float_add
  | SPV_KHR_expect_assume
  | SPV_INTEL_inline_assembly
  deriving DecidableEq, Repr

/-- Canonical extension name strings (SPIRVMap<ExtensionID, std::string>). -/
def extName : ExtId → String
  | ExtId.SPV_EXT_shader_atomic_float16_add => "SPV_EXT_shader_atomic_float16_add"
  | ExtId.SPV_EXT_shader_atomic_float_add => "SPV_EXT_shader_atomic_float_add"
  | ExtId.SPV_KHR_expect_assume => "SPV_KHR_expect_assume"
  | ExtId.SPV_INTEL_inline_assembly => "SPV_INTEL_inline_assembly"

/-- Memory model kinds (subset of SPIRVMemoryModelKind). -/
inductive MemModel where
  | MemoryModelSimple | MemoryModelGLSL450 | MemoryModelOpenCL
  deriving DecidableEq, Repr

/-- Error codes of the structured error log (subset of SPIRVErrorCode). -/
inductive ErrCode where
  | InvalidModule | RequiresExtension | RequiresVersion
  deriving DecidableEq, Repr

/-- Modelled from the spec: the universal entity node (SPIRVEntry and its
subclasses are not under src/; the spec's data model gives each entity an
operation kind, an optional id, a list of non-literal operand references, an
optional name, and annotations).  Fields irrelevant to a given kind keep their
defaults.  `ty` is the type operand of values (a SPIRVValue's type is among its
non-literal operands); `operands` are the remaining non-literal operands, as
arena indices.  `pointerId` is the target id of an OpTypeForwardPointer.
`requiredCaps` / `requiredExt` model SPIRVEntry::getRequiredCapability /
getRequiredExtension; they are empty/none for every entity kind the claims
construct.  `targetId` / `targetIds` are the target-id payloads of
names/decorations/entry points and of group-decorate rows. -/
structure SPIRVEntry where
  opcode : Op := Op.OpNop
  hasId : Bool := true
  id : Nat := 0
  ty : Option Nat := none
  operands : List Nat := []
  pointerId : Nat := 0
  storageClass : Nat := 0
  name : Option String := none
  decorationsE : List Nat := []
  execModes : List Nat := []
  requiredCaps : List Cap := []
  requiredExt : Option ExtId := none
  targetId : Nat := 0
  targetIds : List Nat := []
  width : Nat := 0
  value : Nat := 0
  parentIsSome : Bool := false
  deriving DecidableEq, Repr

instance : Inhabited SPIRVEntry := ⟨{}⟩

/-- Association-list lookup (first match), modelling std::map / unordered_map
`find`. -/
def alookup {α : Type} : List (Nat × α) → Nat → Option α
  | [], _ => none
  | (k, v) :: t, key => if k = key then some v else alookup t key

/-- Association-list insert-or-assign, modelling `map[k] = v`. -/
def ainsert {α : Type} : List (Nat × α) → Nat → α → List (Nat × α)
  | [], k, v => [(k, v)]
  | (k', v') :: t, k, v =>
      if k' = k then (k, v) :: t else (k', v') :: ainsert t k v

/-- Association-list erase, modelling `map.erase(k)`. -/
def aerase {α : Type} : List (Nat × α) → Nat → List (Nat × α)
  | [], _ => []
  | (k', v') :: t, k => if k' = k then t else (k', v') :: aerase t k

/-- std::set<Nat> insert (membership-based, order-insensitive for the claims). -/
def insertNat (l : List Nat) (x : Nat) : List Nat :=
  if x ∈ l then l else l ++ [x]

/-- std::set<Nat> erase. -/
def eraseNat (l : List Nat) (x : Nat) : List Nat :=
  l.filter (fun y => y ≠ x)

/-- std::set<std::string> insert. -/
def insertStr (l : List String) (s : String) : List String :=
  if s ∈ l then l else l ++ [s]

/-- The SPIR-V module state: the fields of SPIRVModuleImpl that the claims
touch.  Entities live in `arena` (appended on creation, mirroring `new ...`);
all id-keyed maps and per-category vectors hold arena indices. -/
structure SPIRVModule where
  arena : List SPIRVEntry := []
  nextId : Nat := 1
  idEntryMap : List (Nat × Nat) := []
  idTypeForwardMap : List (Nat × Nat) := []
  entryNoId : List Nat := []
  typeVec : List Nat := []
  constVec : List Nat := []
  variableVec : List Nat := []
  forwardPointerVec : List Nat := []
  stringVec : List Nat := []
  memberNameVec : List Nat := []
  decorateVec : List Nat := []
  groupDecVec : List Nat := []
  entryPointVec : List Nat := []
  namedId : List Nat := []
  capMap : List Cap := []
  spirvExt : List String := []
  intTypeMap : List (Nat × Nat) := []
  literalMap : List (Nat × Nat) := []
  memoryModel : MemModel := MemModel.MemoryModelSimple
  spirvVersion : Nat := 0x10000
  generatorId : Nat := 6
  generatorVer : Nat := 0
  instSchema : Nat := 0
  maxVersion : Nat := 0x10600
  allowedExts : List ExtId := []
  autoAddCapability : Bool := true
  validateCapability : Bool := false
  autoAddExtensions : Bool := true
  isValid : Bool := true
  errors : List (ErrCode × String) := []
  deriving DecidableEq, Repr

/-- Fetch the entity stored at arena index `i` (a dereference of an entity
pointer; total via a default, which well-formedness hypotheses exclude). -/
def getEnt (m : SPIRVModule) (i : Nat) : SPIRVEntry :=
  (m.arena.get? i).getD {}

/-- Update the entity at arena index `i` in place (entities are mutated in
place in the C++ code). -/
def updEnt (m : SPIRVModule) (i : Nat) (f : SPIRVEntry → SPIRVEntry) : SPIRVModule :=
  { m with arena := m.arena.set i (f (getEnt m i)) }

/-- Allocate a fresh entity object (`new SPIRV...(...)`): append to the arena
and return its index. -/
def newEntity (m : SPIRVModule) (e : SPIRVEntry) : Nat × SPIRVModule :=
  (m.arena.length, { m with arena := m.arena ++ [e] })

/-- Modelled from the spec: SPIRVEnum.h (not under src/) defines the invalid
id sentinel; the spec reserves 0 as invalid/unassigned. -/
def SPIRVID_INVALID : Nat := 0

/-- Modelled from the spec: `isValidId` — 0 is the invalid/unassigned
sentinel. -/
def isValidId (i : Nat) : Bool := i ≠ SPIRVID_INVALID

/-- SPIRVModuleImpl::getId (SPIRVModule.cpp:974-981).  If `i` is invalid,
returns the next available id; otherwise returns `i` and raises the next
available id to at least `i`; either way the counter then advances by `inc`. -/
def getId (m : SPIRVModule) (i : Nat) (inc : Nat) : Nat × SPIRVModule :=
  if ¬ isValidId i then
    (m.nextId, { m with nextId := m.nextId + inc })
  else
    (i, { m with nextId := max i m.nextId + inc })

/-- Modelled from the spec: required extension of a capability
(SPIRVCapability::getRequiredExtension is not under src/).  The capabilities
the claims exercise (Kernel in particular) require no extension. -/
def capRequiredExt (_ : Cap) : Option ExtId := none

/-- Modelled from the spec: capabilities implied by a capability
(SPIRV::getCapability(Cap) is not under src/).  The capabilities the claims
exercise imply no further capabilities. -/
def capImpliedCaps (_ : Cap) : List Cap := []

/-- SPIRVModuleImpl::addExtension (SPIRVModule.cpp:764-784).  A disallowed
extension records a RequiresExtension error and invalidates the module without
touching the enabled set; an allowed one inserts its canonical name (std::set
semantics), with the hard-coded float16 special case inserting the older
extension name as well. -/
def addExtension (m : SPIRVModule) (x : ExtId) : SPIRVModule :=
  if ¬ (x ∈ m.allowedExts) then
    { m with errors := m.errors ++ [(ErrCode.RequiresExtension, extName x)],
             isValid := false }
  else
    let m := { m with spirvExt := insertStr m.spirvExt (extName x) }
    if x = ExtId.SPV_EXT_shader_atomic_float16_add then
      { m with spirvExt :=
          insertStr m.spirvExt (extName ExtId.SPV_EXT_shader_atomic_float_add) }
    else m

/-- The body of SPIRVModuleImpl::addCapability after the recursive
`addCapabilities(SPIRV::getCapability(Cap))` prefix: no-op if present, else
(under AutoAddExtensions) add the capability's required extension and insert
the capability. -/
def addCapabilityCore (m : SPIRVModule) (c : Cap) : SPIRVModule :=
  if c ∈ m.capMap then m
  else
    let m :=
      if m.autoAddExtensions then
        match capRequiredExt c with
        | some x => addExtension m x
        | none => m
      else m
    { m with capMap := m.capMap ++ [c] }

/-- SPIRVModuleImpl::addCapability (SPIRVModule.cpp:786-803).  The leading
`addCapabilities(SPIRV::getCapability(Cap))` loop adds the implied
capabilities; since `capImpliedCaps` is empty for every modelled capability
the transitive closure is one level deep. -/
def addCapability (m : SPIRVModule) (c : Cap) : SPIRVModule :=
  addCapabilityCore ((capImpliedCaps c).foldl addCapabilityCore m) c

/-- SPIRVModuleImpl::setMemoryModel (SPIRVModule.cpp:196-200): record the
model; the OpenCL memory model additionally requires the Kernel capability. -/
def setMemoryModel (m : SPIRVModule) (mm : MemModel) : SPIRVModule :=
  let m := { m with memoryModel := mm }
  if mm = MemModel.MemoryModelOpenCL then addCapability m Cap.Kernel else m

/-- The SPIRVModuleImpl default constructor (SPIRVModule.cpp:82-91): NextId
starts at 1, capability auto-add on, validation off, and the body calls
`setMemoryModel(MemoryModelOpenCL)`. -/
def initModule : SPIRVModule :=
  setMemoryModel {} MemModel.MemoryModelOpenCL

/-- The SPIRVModuleImpl(TranslatorOpts) constructor (SPIRVModule.cpp:93-96):
delegate to the default constructor, then record the option-provided
allow-list and maximum version. -/
def initModuleOpts (allowed : List ExtId) (maxV : Nat) : SPIRVModule :=
  { initModule with allowedExts := allowed, maxVersion := maxV }

/-- Modelled from the spec: annotation transfer on forward replacement
(SPIRVEntry::takeAnnotations is not under src/) — the forward's name,
decorations and execution modes are transferred to the real entity. -/
def takeAnnots (e fwd : SPIRVEntry) : SPIRVEntry :=
  { e with
    name := match fwd.name with | some n => some n | none => e.name,
    decorationsE := e.decorationsE ++ fwd.decorationsE,
    execModes := e.execModes ++ fwd.execModes }

/-- Modelled from the spec: SPIRVEntry::replaceTargetIdInDecorates (not under
src/) — every decoration whose target is the entity's old id is retargeted to
the new id. -/
def retargetDecorates (m : SPIRVModule) (oldId newId : Nat) : SPIRVModule :=
  { m with arena := m.arena.map (fun e =>
      if e.opcode = Op.OpDecorate ∧ e.targetId = oldId then
        { e with targetId := newId }
      else e) }

/-- SPIRVModuleImpl::replaceForward (SPIRVModule.cpp:1351-1370).  If the real
entity's id equals the forward's id, the map entry is redirected to the real
entity and the forward's annotations are taken over; otherwise the real entity
adopts the forward's id, the map rows are spliced accordingly, and decorations
referencing the old id are retargeted.  The forward object is deleted (its
arena slot is simply no longer referenced). -/
def replaceForward (m : SPIRVModule) (fwdIdx entryIdx : Nat) : SPIRVModule :=
  let curId := (getEnt m entryIdx).id
  let forwardId := (getEnt m fwdIdx).id
  if forwardId = curId then
    let m := { m with idEntryMap := ainsert m.idEntryMap curId entryIdx }
    updEnt m entryIdx (fun e => takeAnnots e (getEnt m fwdIdx))
  else
    let m := { m with idEntryMap := aerase m.idEntryMap curId }
    let m := updEnt m entryIdx (fun e => { e with id := forwardId })
    let m := { m with idEntryMap := ainsert m.idEntryMap forwardId entryIdx }
    retargetDecorates m curId forwardId

/-- SPIRVModuleImpl::layoutEntry (SPIRVModule.cpp:850-903), restricted to the
opcodes of `Op`: file the entity into its category collection. -/
def layoutEntry (m : SPIRVModule) (idx : Nat) : SPIRVModule :=
  let e := getEnt m idx
  match e.opcode with
  | Op.OpString => { m with stringVec := m.stringVec ++ [idx] }
  | Op.OpMemberName => { m with memberNameVec := m.memberNameVec ++ [idx] }
  | Op.OpVariable =>
      if ¬ e.parentIsSome then { m with variableVec := m.variableVec ++ [idx] } else m
  | Op.OpUntypedVariableKHR =>
      if ¬ e.parentIsSome then { m with variableVec := m.variableVec ++ [idx] } else m
  | oc =>
      if isTypeOpCode oc then { m with typeVec := m.typeVec ++ [idx] }
      else if isConstantOpCode oc then { m with constVec := m.constVec ++ [idx] }
      else m

/-- SPIRVModuleImpl::exist (SPIRVModule.cpp:960-970): lookup in IdEntryMap
only. -/
def exist (m : SPIRVModule) (i : Nat) : Bool :=
  (alookup m.idEntryMap i).isSome

/-- SPIRVModuleImpl::getEntry (SPIRVModule.cpp:983-995): IdEntryMap first,
then the forward-declared-pointer map; a miss in both asserts (modelled as
`none`). -/
def getEntry (m : SPIRVModule) (i : Nat) : Option Nat :=
  match alookup m.idEntryMap i with
  | some idx => some idx
  | none => alookup m.idTypeForwardMap i

/-- SPIRVModuleImpl::addEntry (SPIRVModule.cpp:909-958) for the entity at
arena index `idx`: register under its id (replacing a forward placeholder if
one is mapped there; a duplicate id with a different real entity asserts and,
in release mode, leaves the map unchanged), or file an id-less entity into the
no-id set (OpLine excepted) and an OpTypeForwardPointer into the
forward-declared-pointer map; then classify via layoutEntry and run
capability/extension inference. -/
def addEntry (m : SPIRVModule) (idx : Nat) : SPIRVModule :=
  let e := getEnt m idx
  let m :=
    if e.hasId then
      match alookup m.idEntryMap e.id with
      | some mappedIdx =>
          if (getEnt m mappedIdx).opcode = Op.OpForward then
            replaceForward m mappedIdx idx
          else m
      | none => { m with idEntryMap := ainsert m.idEntryMap e.id idx }
    else
      let m :=
        if e.opcode ≠ Op.OpLine then { m with entryNoId := m.entryNoId ++ [idx] }
        else m
      if e.opcode = Op.OpTypeForwardPointer then
        { m with idTypeForwardMap := ainsert m.idTypeForwardMap e.pointerId idx }
      else m
  let m := layoutEntry m idx
  let m :=
    if m.autoAddCapability then (getEnt m idx).requiredCaps.foldl addCapability m
    else m
  if m.autoAddExtensions then
    match (getEnt m idx).requiredExt with
    | some x => addExtension m x
    | none => m
  else m

/-- `add(new ...)`: allocate the entity, then register it; returns its arena
index. -/
def addNew (m : SPIRVModule) (e : SPIRVEntry) : Nat × SPIRVModule :=
  let im := newEntity m e
  (im.1, addEntry im.2 im.1)

/-- SPIRVModuleImpl::setName (SPIRVModule.cpp:1041-1049): set the entity's
name; for id-carrying entities track the id in the NamedId set (erasing it
when the name is emptied). -/
def setNameM (m : SPIRVModule) (idx : Nat) (n : String) : SPIRVModule :=
  let m := updEnt m idx (fun e => { e with name := some n })
  let e := getEnt m idx
  if ¬ e.hasId then m
  else if n ≠ "" then { m with namedId := insertNat m.namedId e.id }
  else { m with namedId := eraseNat m.namedId e.id }

/-- SPIRVModuleImpl::addType (SPIRVModule.cpp:1065-1070): register, then set
the name if the entity carries one. -/
def addType (m : SPIRVModule) (idx : Nat) : SPIRVModule :=
  let m := addEntry m idx
  match (getEnt m idx).name with
  | some n => if n ≠ "" then setNameM m idx n else m
  | none => m

/-- SPIRVModuleImpl::addIntegerType (SPIRVModule.cpp:1095-1102): return the
cached instance for the bit width, or create one (consuming an id), cache it
and register it. -/
def addIntegerType (m : SPIRVModule) (w : Nat) : Nat × SPIRVModule :=
  match alookup m.intTypeMap w with
  | some t => (t, m)
  | none =>
      let im := getId m SPIRVID_INVALID 1
      let nm := newEntity im.2
        { opcode := Op.OpTypeInt, hasId := true, id := im.1, width := w }
      let m2 := { nm.2 with intTypeMap := ainsert nm.2.intTypeMap w nm.1 }
      (nm.1, addType m2 nm.1)

/-- SPIRVModuleImpl::getLiteralAsConstant (SPIRVModule.cpp:838-848): return
the cached 32-bit-literal constant, or build it (materializing the 32-bit
integer type through its own cache first), cache and register it. -/
def getLiteralAsConstant (m : SPIRVModule) (lit : Nat) : Nat × SPIRVModule :=
  match alookup m.literalMap lit with
  | some c => (c, m)
  | none =>
      let tm := addIntegerType m 32
      let im := getId tm.2 SPIRVID_INVALID 1
      let nm := newEntity im.2
        { opcode := Op.OpConstant, hasId := true, id := im.1,
          ty := some tm.1, value := lit }
      let m2 := { nm.2 with literalMap := ainsert nm.2.literalMap lit nm.1 }
      (nm.1, addEntry m2 nm.1)

/-- SPIRVModuleImpl::addForward(Id, Ty) (SPIRVModule.cpp:1347-1349): register
a forward placeholder (internal::OpForward) under the requested id. -/
def addForwardId (m : SPIRVModule) (i : Nat) (tyIdx : Option Nat) : Nat × SPIRVModule :=
  addNew m { opcode := Op.OpForward, hasId := true, id := i, ty := tyIdx }

/-- SPIRVModuleImpl::addDecorate (SPIRVModule.cpp:1279-1290) for a decoration
targeting id `tgt` with payload `payload`: register the (id-less) decoration
entity, push it onto the flat decoration list (no group owner), and attach it
to the target entity.  The attachment to the target entity's own decoration
list is modelled from the spec (the SPIRVDecorateGeneric/SPIRVEntry code is
not under src/; the spec says decorations attach to their target and transfer
from a forward placeholder to its replacement). -/
def addDecorateM (m : SPIRVModule) (tgt payload : Nat) : SPIRVModule :=
  let dm := addNew m { opcode := Op.OpDecorate, hasId := false,
                       targetId := tgt, value := payload }
  let m := { dm.2 with decorateVec := dm.2.decorateVec ++ [dm.1] }
  match alookup m.idEntryMap tgt with
  | some t => updEnt m t (fun e => { e with decorationsE := e.decorationsE ++ [payload] })
  | none => m

/-- SPIRVModuleImpl::eraseReferencesOfInst (SPIRVModule.cpp:225-251): for an
id resolving to an id-carrying entity, erase its NamedId entry, the
member-name and decoration rows targeting it, and (for functions) its
entry-point rows; returns false when the id does not resolve or resolves to an
id-less entry.  The group-decorate rows (GroupDecVec) are not touched. -/
def eraseReferencesOfInst (m : SPIRVModule) (i : Nat) : Bool × SPIRVModule :=
  match getEntry m i with
  | none => (false, m)
  | some idx =>
      let e := getEnt m idx
      if ¬ e.hasId then (false, m)
      else
        let m := { m with namedId := eraseNat m.namedId i }
        let m := { m with memberNameVec :=
          m.memberNameVec.filter (fun d => (getEnt m d).targetId ≠ i) }
        let m := { m with decorateVec :=
          m.decorateVec.filter (fun d => (getEnt m d).targetId ≠ i) }
        let m :=
          if e.opcode = Op.OpFunction then
            { m with entryPointVec :=
              m.entryPointVec.filter (fun d => (getEnt m d).targetId ≠ i) }
          else m
        (true, m)

/-- Modelled from the spec: the magic number of the SPIR-V wire format (the
spirv.hpp header is not under src/). -/
def MagicNumber : Nat := 0x07230203

/-- Modelled from the spec: the known version range of SPIRVEnum.h's
`isSPIRVVersionKnown` (versions between the minimum and maximum known
versions). -/
def minKnownVersion : Nat := 0x10000

/-- Modelled from the spec: the maximum known SPIR-V version. -/
def maxKnownVersion : Nat := 0x10600

/-- Modelled from the spec: `isSPIRVVersionKnown` — the version lies in the
known min/max range. -/
def isSPIRVVersionKnown (v : Nat) : Bool :=
  minKnownVersion ≤ v ∧ v ≤ maxKnownVersion

/-- SPIRVModule::isAllowedToUseVersion (SPIRVModule.h:543-545): the requested
version must not exceed the configured maximum. -/
def isAllowedToUseVersion (m : SPIRVModule) (v : Nat) : Bool :=
  v ≤ m.maxVersion

/-- Modelled from the spec: the default instruction schema tag
(SPIRVISCH_Default). -/
def SPIRVISCH_Default : Nat := 0

/-- The header-validation phase of SPIRVModuleImpl::parseSPIRV
(SPIRVModule.cpp:2567-2606).  The input is the word stream; reading the
five-word header from a stream holding fewer than five words sets the eof and
fail bits, which the source reports as "input file is empty" (the eof check
fires first).  Each subsequent check (`magic`, known version, allowed version,
default schema) short-circuits, records one structured error and invalidates
the module.  On success the header fields are recorded and the remaining words
(the instruction stream) are returned; on failure `none` is returned before
any instruction is consumed. -/
def parseSPIRVHeader (m0 : SPIRVModule) (input : List Nat) :
    SPIRVModule × Option (List Nat) :=
  let m := { m0 with autoAddCapability := false, autoAddExtensions := false }
  match input with
  | h0 :: h1 :: h2 :: h3 :: h4 :: rest =>
      if h0 ≠ MagicNumber then
        ({ m with errors := m.errors ++ [(ErrCode.InvalidModule, "invalid magic number")],
                  isValid := false }, none)
      else if ¬ isSPIRVVersionKnown h1 then
        ({ m with errors := m.errors ++ [(ErrCode.InvalidModule, "unsupported SPIR-V version number")],
                  isValid := false }, none)
      else if ¬ isAllowedToUseVersion m h1 then
        ({ m with errors := m.errors ++ [(ErrCode.InvalidModule, "incorrect SPIR-V version number")],
                  isValid := false }, none)
      else if h4 ≠ SPIRVISCH_Default then
        ({ m with errors := m.errors ++ [(ErrCode.InvalidModule, "unsupported instruction schema")],
                  isValid := false }, none)
      else
        ({ m with spirvVersion := h1,
                  generatorId := h2 / 65536,
                  generatorVer := h2 % 65536,
                  nextId := h3,
                  instSchema := h4 }, some rest)
  | _ =>
      ({ m with errors := m.errors ++ [(ErrCode.InvalidModule, "input file is empty")],
                isValid := false }, none)

/-- The id sequence returned by repeated `getId(SPIRVID_INVALID, inc)` calls,
one per increment in the list. -/
def getIdSeq (m : SPIRVModule) : List Nat → List Nat
  | [] => []
  | inc :: rest =>
      let r := getId m SPIRVID_INVALID inc
      r.1 :: getIdSeq r.2 rest

/-! ## The topological serializer (class TopologicalSort, SPIRVModule.cpp:2090-2212) -/

/-- The three DFS colours of TopologicalSort (SPIRVModule.cpp:2091). -/
inductive DFSState where
  | Unvisited | Discovered | Visited
  deriving DecidableEq, Repr

/-- Read an entry state; absent keys default to Unvisited, mirroring
`EntryStateMap[E]`'s default construction. -/
def getSt (s : List (Nat × DFSState)) (i : Nat) : DFSState :=
  (alookup s i).getD DFSState.Unvisited

/-- The traversal state of a TopologicalSort run: the four output vectors, the
forward-pointer set (keyed by pointer id, carrying the created entity's arena
index), the DFS colour map (keyed by arena index), and the module (which
receives the forward-pointer entities created while breaking cycles). -/
structure TS where
  m : SPIRVModule
  tiVec : List Nat := []
  ciVec : List Nat := []
  tVec : List Nat := []
  cvVec : List Nat := []
  fwdSet : List (Nat × Nat) := []
  smap : List (Nat × DFSState) := []
  deriving DecidableEq, Repr

/-- Set the DFS colour of an entry. -/
def setSt (st : TS) (i : Nat) (s : DFSState) : TS :=
  { st with smap := ainsert st.smap i s }

/-- Modelled from the spec: SPIRVEntry::getNonLiteralOperands (not under
src/) — the entity's type operand (for values) followed by its remaining
non-literal operand references. -/
def nonLitOps (m : SPIRVModule) (i : Nat) : List Nat :=
  (getEnt m i).ty.toList ++ (getEnt m i).operands

/-- The operand redirection of TopologicalSort::visit
(SPIRVModule.cpp:2131-2135): an OpTypeForwardPointer operand is replaced by
`getEntry(pointerId)` (IdEntryMap first, then the forward-declared map; a miss
in both asserts in the source and is modelled as the identity, which the
well-formedness hypotheses of the theorems exclude). -/
def redirectOp (m : SPIRVModule) (o : Nat) : Nat :=
  let e := getEnt m o
  if e.opcode = Op.OpTypeForwardPointer then
    match getEntry m e.pointerId with
    | some t => t
    | none => o
  else o

/-- Whether a constant's type is an integer type (`C->getType()->isTypeInt()`,
SPIRVModule.cpp:2162). -/
def constTypeIsInt (m : SPIRVModule) (e : SPIRVEntry) : Bool :=
  match e.ty with
  | some t => (getEnt m t).opcode = Op.OpTypeInt
  | none => false

/-- The output section an entity settles into on post-order classification
(SPIRVModule.cpp:2157-2169): 0 = TypeIntVec, 1 = ConstIntVec, 2 = TypeVec,
3 = ConstAndVarVec. -/
def rankOf (m : SPIRVModule) (i : Nat) : Nat :=
  let e := getEnt m i
  if e.opcode = Op.OpTypeInt then 0
  else if isConstantOpCode e.opcode then
    (if constTypeIsInt m e then 1 else 3)
  else if isTypeOpCode e.opcode then 2
  else 3

/-- Append the settled entity to the vector its classification selects. -/
def classify (st : TS) (i : Nat) : TS :=
  match rankOf st.m i with
  | 0 => { st with tiVec := st.tiVec ++ [i] }
  | 1 => { st with ciVec := st.ciVec ++ [i] }
  | 2 => { st with tVec := st.tVec ++ [i] }
  | _ => { st with cvVec := st.cvVec ++ [i] }

/-- Breaking a cycle at a pointer type (SPIRVModule.cpp:2142-2153): a new
OpTypeForwardPointer entity for the pointer's id and storage class is created
and added to the module, and inserted into the forward-pointer set unless one
with the same pointer id is already present (the set is keyed by pointer
id). -/
def breakCycle (st : TS) (i : Nat) : TS :=
  let e := getEnt st.m i
  let fm := addNew st.m
    { opcode := Op.OpTypeForwardPointer, hasId := false,
      pointerId := e.id, storageClass := e.storageClass }
  let st1 := { st with m := fm.2 }
  if st1.fwdSet.any (fun p => p.1 = e.id) then st1
  else { st1 with fwdSet := st1.fwdSet ++ [(e.id, fm.1)] }

mutual

/-- TopologicalSort::visit (SPIRVModule.cpp:2123-2172) with a fuel argument
(the C++ recursion terminates on every input reachable from the module
builder; the fuel makes the Lean function total, and every theorem is stated
about runs that complete).  Returns `true` when a cyclic dependency was
detected on the current path. -/
def visit (fuel : Nat) (i : Nat) (st : TS) : Option (Bool × TS) :=
  match fuel with
  | 0 => none
  | Nat.succ f =>
    match getSt st.smap i with
    | DFSState.Visited => some (false, st)
    | DFSState.Discovered => some (true, st)
    | DFSState.Unvisited =>
      let st1 := setSt st i DFSState.Discovered
      match visitList f (nonLitOps st1.m i) st1 with
      | none => none
      | some (true, st2) =>
          let st3 := setSt st2 i DFSState.Unvisited
          if isPtrOpcode (getEnt st3.m i).opcode then
            some (false, breakCycle st3 i)
          else
            some (true, st3)
      | some (false, st2) =>
          let st3 := classify st2 i
          some (false, setSt st3 i DFSState.Visited)

/-- The operand loop of TopologicalSort::visit: redirect each operand, skip
operands already Visited, recurse otherwise, and abort with `true` as soon as
a child reports a cycle. -/
def visitList (fuel : Nat) (ops : List Nat) (st : TS) : Option (Bool × TS) :=
  match fuel with
  | 0 => none
  | Nat.succ f =>
    match ops with
    | [] => some (false, st)
    | o :: rest =>
        let r := redirectOp st.m o
        if getSt st.smap r = DFSState.Visited then
          visitList f rest st
        else
          match visit f r st with
          | none => none
          | some (true, st') => some (true, st')
          | some (false, st') => visitList f rest st'

end

/-- Insert an arena index into an id-sorted root list (EntryStateMap is a
std::map ordered by entity id, SPIRVModule.cpp:2188-2190). -/
def insById (m : SPIRVModule) (x : Nat) : List Nat → List Nat
  | [] => [x]
  | y :: t =>
      if (getEnt m x).id ≤ (getEnt m y).id then x :: y :: t
      else y :: insById m x t

/-- Sort root indices by entity id (the iteration order of EntryStateMap). -/
def insSortByIds (m : SPIRVModule) : List Nat → List Nat
  | [] => []
  | x :: t => insById m x (insSortByIds m t)

/-- The roots of the sort: all types, constants and variables
(SPIRVModule.cpp:2191-2197), iterated in id order. -/
def sortRootsOf (m : SPIRVModule) : List Nat :=
  insSortByIds m ((m.typeVec ++ m.constVec) ++ m.variableVec)

/-- Outcome of a TopologicalSort construction: completed, or aborted through
`llvm_unreachable("Cyclic dependency for types detected")`, or out of fuel. -/
inductive SortOut where
  | fuelOut
  | fatal
  | done (st : TS)
  deriving DecidableEq, Repr

/-- The root loop of the TopologicalSort constructor
(SPIRVModule.cpp:2199-2202): visit every root; a `true` return is the fatal
non-pointer-cycle condition. -/
def sortLoop (fuel : Nat) : List Nat → TS → SortOut
  | [], st => SortOut.done st
  | r :: rs, st =>
      match visit fuel r st with
      | none => SortOut.fuelOut
      | some (true, _) => SortOut.fatal
      | some (false, st') => sortLoop fuel rs st'

/-- Run the TopologicalSort constructor body on a module. -/
def runSort (m : SPIRVModule) (fuel : Nat) : SortOut :=
  sortLoop fuel (sortRootsOf m) { m := m }

/-- The constructor epilogue (SPIRVModule.cpp:2203-2205): append the
forward-pointer set to the module's ForwardPointerVec. -/
def finishSort (st : TS) : SPIRVModule :=
  { st.m with forwardPointerVec := st.m.forwardPointerVec ++ st.fwdSet.map Prod.snd }

/-- The emission stream of `operator<<(spv_ostream&, const TopologicalSort&)`
(SPIRVModule.cpp:2209-2212): TypeIntVec, ConstIntVec, TypeVec, ConstAndVarVec
concatenated in that order. -/
def sortedStream (st : TS) : List Nat :=
  st.tiVec ++ (st.ciVec ++ (st.tVec ++ st.cvVec))

/-- The sorted stream of a completed run ([] when the run did not complete). -/
def runStream (m : SPIRVModule) (fuel : Nat) : List Nat :=
  match runSort m fuel with
  | SortOut.done st => sortedStream st
  | _ => []

/-- The pointer ids of the forward-pointer declarations synthesized by a
completed run. -/
def runFwdPids (m : SPIRVModule) (fuel : Nat) : List Nat :=
  match runSort m fuel with
  | SortOut.done st => st.fwdSet.map Prod.fst
  | _ => []

/-- Whether a run completed without the fatal non-pointer-cycle abort. -/
def runDone (m : SPIRVModule) (fuel : Nat) : Bool :=
  match runSort m fuel with
  | SortOut.done _ => true
  | _ => false

/-- The forward-pointer/type-constant-variable slice of the serializer output
(`O << ... << MI.ForwardPointerVec << TS`, SPIRVModule.cpp:2290-2294): the
module's forward-pointer declarations (including those just synthesized),
followed by the sorted stream. -/
def runEmitTCV (m : SPIRVModule) (fuel : Nat) : List Nat :=
  match runSort m fuel with
  | SortOut.done st => (finishSort st).forwardPointerVec ++ sortedStream st
  | _ => []

/-! ## Concrete modules used by the claim instances -/

/-- A module holding a struct S (id 2) whose two members are the pointer P
(id 3) back to S — the recursive-struct shape with the struct's id preceding
the pointer's id. -/
def mGood : SPIRVModule :=
  { arena := [
      { opcode := Op.OpTypeStruct, hasId := true, id := 2, operands := [1, 1] },
      { opcode := Op.OpTypePointer, hasId := true, id := 3, operands := [0],
        storageClass := 7 } ],
    idEntryMap := [(2, 0), (3, 1)],
    typeVec := [0, 1] }

/-- The same recursive-struct shape with the ids swapped: the pointer P now
has id 2 and the struct S id 3, so the root iteration (ordered by id) visits
the pointer first. -/
def mBad : SPIRVModule :=
  { arena := [
      { opcode := Op.OpTypeStruct, hasId := true, id := 3, operands := [1, 1] },
      { opcode := Op.OpTypePointer, hasId := true, id := 2, operands := [0],
        storageClass := 7 } ],
    idEntryMap := [(3, 0), (2, 1)],
    typeVec := [0, 1] }

/-- A module with an integer-typed OpSpecConstantOp (id 4) whose value operand
is a float-typed constant (id 3): the constant is classified into ConstIntVec
while its operand settles in the trailing ConstAndVarVec. -/
def mCex : SPIRVModule :=
  { arena := [
      { opcode := Op.OpTypeInt, hasId := true, id := 1, width := 32 },
      { opcode := Op.OpTypeFloat, hasId := true, id := 2, width := 32 },
      { opcode := Op.OpConstant, hasId := true, id := 3, ty := some 1 },
      { opcode := Op.OpSpecConstantOp, hasId := true, id := 4, ty := some 0,
        operands := [2] } ],
    idEntryMap := [(1, 0), (2, 1), (3, 2), (4, 3)],
    typeVec := [0, 1], constVec := [2, 3] }

/-- A module with a function (id 7) that is a target of a group-decorate row. -/
def mC6 : SPIRVModule :=
  { arena := [
      { opcode := Op.OpFunction, hasId := true, id := 7 },
      { opcode := Op.OpGroupDecorate, hasId := false, targetIds := [7] } ],
    idEntryMap := [(7, 0)],
    groupDecVec := [1] }

/-! ## Association-list and list helper lemmas -/

theorem alookup_ainsert_self {α : Type} (l : List (Nat × α)) (k : Nat) (v : α) :
    alookup (ainsert l k v) k = some v := by
  induction l with
  | nil => simp [ainsert, alookup]
  | cons p t ih =>
      by_cases h : p.1 = k
      · simp [ainsert, h, alookup]
      · simp [ainsert, h, alookup, ih]

theorem alookup_ainsert_ne {α : Type} (l : List (Nat × α)) (k k' : Nat) (v : α)
    (h : k ≠ k') : alookup (ainsert l k v) k' = alookup l k' := by
  induction l with
  | nil => simp [ainsert, alookup, h]
  | cons p t ih =>
      by_cases hp : p.1 = k
      · simp [ainsert, hp, alookup, h]
      · simp [ainsert, hp, alookup, ih]

theorem ainsert_of_lookup_none {α : Type} (l : List (Nat × α)) (k : Nat) (v : α)
    (h : alookup l k = none) : ainsert l k v = l ++ [(k, v)] := by
  induction l with
  | nil => simp [ainsert]
  | cons p t ih =>
      by_cases hp : p.1 = k
      · simp [alookup, hp] at h
      · simp [alookup, hp] at h
        simp [ainsert, hp, ih h]

/-- Number of rows of an association list with the given key. -/
def countKeys {α : Type} (l : List (Nat × α)) (k : Nat) : Nat :=
  (l.filter (fun p => p.1 = k)).length

theorem countKeys_lookup_none {α : Type} (l : List (Nat × α)) (k : Nat)
    (h : alookup l k = none) : countKeys l k = 0 := by
  induction l with
  | nil => simp [countKeys]
  | cons p t ih =>
      by_cases hp : p.1 = k
      · simp [alookup, hp] at h
      · simp [alookup, hp] at h
        simp [countKeys, List.filter, hp] at ih ⊢
        exact ih h

theorem get_concat_length {α : Type} (l : List α) (a : α) :
    (l ++ [a]).get? l.length = some a := by
  induction l with
  | nil => rfl
  | cons x t ih => simp [ih]

theorem set_concat_length {α : Type} (l : List α) (a b : α) :
    (l ++ [a]).set l.length b = l ++ [b] := by
  induction l with
  | nil => rfl
  | cons x t ih => simp [ih]

/-! ## C4: the id allocator -/

theorem getIdSeq_ge (incs : List Nat) (m : SPIRVModule)
    (h : ∀ j ∈ incs, 1 ≤ j) : ∀ y ∈ getIdSeq m incs, m.nextId ≤ y := by
  induction incs generalizing m with
  | nil => simp [getIdSeq]
  | cons inc rest ih =>
      intro y hy
      simp only [getIdSeq] at hy
      rcases List.mem_cons.mp hy with rfl | hy'
      · simp [getId, isValidId, SPIRVID_INVALID]
      · have h1 := ih ((getId m SPIRVID_INVALID inc).2)
          (fun j hj => h j (List.mem_cons_of_mem _ hj)) y hy'
        have h2 : 1 ≤ inc := h inc (List.mem_cons_self _ _)
        simp [getId, isValidId, SPIRVID_INVALID] at h1
        omega

theorem getIdSeq_pairwise_lt (incs : List Nat) (m : SPIRVModule)
    (h : ∀ j ∈ incs, 1 ≤ j) : (getIdSeq m incs).Pairwise (· < ·) := by
  induction incs generalizing m with
  | nil => simp [getIdSeq]
  | cons inc rest ih =>
      simp only [getIdSeq]
      refine List.Pairwise.cons ?_ (ih _ (fun j hj => h j (List.mem_cons_of_mem _ hj)))
      intro y hy
      have h1 := getIdSeq_ge rest _ (fun j hj => h j (List.mem_cons_of_mem _ hj)) y hy
      have h2 : 1 ≤ inc := h inc (List.mem_cons_self _ _)
      simp [getId, isValidId, SPIRVID_INVALID] at h1 ⊢
      omega

/-- C4: the id allocator `getId(Id, Increment)` returns the current next
unused id and advances the counter by the increment when `Id` is the invalid
sentinel; when a valid id is requested it returns that id and raises the
counter to at least that id plus the increment; consequently the ids returned
by a sequence of sentinel-id calls (each with a positive increment, the
default being 1) are strictly increasing and pairwise distinct. -/
theorem getId_allocator_spec :
    (∀ (m : SPIRVModule) (i inc : Nat), isValidId i = false →
       getId m i inc = (m.nextId, { m with nextId := m.nextId + inc })) ∧
    (∀ (m : SPIRVModule) (i inc : Nat), isValidId i = true →
       (getId m i inc).1 = i ∧
       (getId m i inc).2.nextId = max i m.nextId + inc ∧
       i + inc ≤ (getId m i inc).2.nextId) ∧
    (∀ (m : SPIRVModule) (incs : List Nat), (∀ j ∈ incs, 1 ≤ j) →
       (getIdSeq m incs).Pairwise (· < ·) ∧
       (getIdSeq m incs).Pairwise (· ≠ ·)) := by
  refine ⟨?_, ?_, ?_⟩
  · intro m i inc h
    simp [getId, h]
  · intro m i inc h
    refine ⟨by simp [getId, h], by simp [getId, h], ?_⟩
    have hx : (getId m i inc).2.nextId = max i m.nextId + inc := by simp [getId, h]
    rw [hx]
    omega
  · intro m incs h
    have hlt := getIdSeq_pairwise_lt incs m h
    exact ⟨hlt, hlt.imp (fun hab => Nat.ne_of_lt hab)⟩

/-- C4 witness: a concrete run of the allocator. -/
theorem getId_allocator_spec_witness :
    (getIdSeq initModule [1, 2, 1]).Pairwise (· < ·) ∧
    (getIdSeq initModule [1, 2, 1]).Pairwise (· ≠ ·) :=
  getId_allocator_spec.2.2 initModule [1, 2, 1] (by decide)

/-! ## C10: the OpenCL memory model implies the Kernel capability -/

/-- C10: every `setMemoryModel` call with the OpenCL memory model adds the
Kernel capability (so a freshly constructed module, whose constructor selects
the OpenCL model, already has it), while any other memory model leaves the
capability set unchanged. -/
theorem setMemoryModel_kernel_spec :
    (Cap.Kernel ∈ initModule.capMap) ∧
    (∀ m : SPIRVModule,
       Cap.Kernel ∈ (setMemoryModel m MemModel.MemoryModelOpenCL).capMap ∧
       (setMemoryModel m MemModel.MemoryModelOpenCL).memoryModel =
         MemModel.MemoryModelOpenCL) ∧
    (∀ (m : SPIRVModule) (mm : MemModel), mm ≠ MemModel.MemoryModelOpenCL →
       (setMemoryModel m mm).capMap = m.capMap) := by
  refine ⟨by decide, ?_, ?_⟩
  · intro m
    by_cases h : Cap.Kernel ∈ m.capMap
    · simp [setMemoryModel, addCapability, capImpliedCaps, addCapabilityCore,
            capRequiredExt, h]
    · simp [setMemoryModel, addCapability, capImpliedCaps, addCapabilityCore,
            capRequiredExt, h]
  · intro m mm h
    simp [setMemoryModel, h]

/-- C10 witness: a non-OpenCL memory model leaves the capability set alone. -/
theorem setMemoryModel_kernel_spec_witness :
    (setMemoryModel initModule MemModel.MemoryModelGLSL450).capMap =
      initModule.capMap :=
  setMemoryModel_kernel_spec.2.2 initModule MemModel.MemoryModelGLSL450 (by decide)

/-! ## C7: the extension allow-list gate -/

theorem mem_insertStr_self (l : List String) (s : String) : s ∈ insertStr l s := by
  by_cases h : s ∈ l <;> simp [insertStr, h]

theorem mem_insertStr_of_mem (l : List String) (s t : String) (h : s ∈ l) :
    s ∈ insertStr l t := by
  by_cases ht : t ∈ l <;> simp [insertStr, ht, h]

theorem insertStr_of_mem (l : List String) (s : String) (h : s ∈ l) :
    insertStr l s = l := by
  simp [insertStr, h]

theorem count_insertStr_ne (l : List String) (s t : String) (h : s ≠ t) :
    (insertStr l t).count s = l.count s := by
  by_cases ht : t ∈ l
  · simp [insertStr, ht]
  · simp [insertStr, ht, List.count_append]
    simp [List.count_cons, h]

/-- C7: requesting an extension outside the configured allow-list marks the
module invalid, records a RequiresExtension error and leaves the enabled set
unchanged; requesting an allowed extension inserts its canonical name exactly
once even when requested twice. -/
theorem addExtension_gate_spec :
    (∀ (m : SPIRVModule) (x : ExtId), x ∉ m.allowedExts →
       (addExtension m x).spirvExt = m.spirvExt ∧
       (addExtension m x).isValid = false ∧
       (addExtension m x).errors =
         m.errors ++ [(ErrCode.RequiresExtension, extName x)]) ∧
    (∀ (m : SPIRVModule) (x : ExtId), x ∈ m.allowedExts →
       extName x ∉ m.spirvExt →
       ((addExtension (addExtension m x) x).spirvExt).count (extName x) = 1) := by
  constructor
  · intro m x h
    simp [addExtension, h]
  · intro m x hx hn
    have hcount0 : m.spirvExt.count (extName x) = 0 := List.count_eq_zero.mpr hn
    have hstep : ∀ m' : SPIRVModule, x ∈ m'.allowedExts →
        (addExtension m' x).spirvExt =
          (if x = ExtId.SPV_EXT_shader_atomic_float16_add then
            insertStr (insertStr m'.spirvExt (extName x))
              (extName ExtId.SPV_EXT_shader_atomic_float_add)
          else insertStr m'.spirvExt (extName x)) ∧
        (addExtension m' x).allowedExts = m'.allowedExts := by
      intro m' hx'
      by_cases hf : x = ExtId.SPV_EXT_shader_atomic_float16_add
      · subst hf
        constructor <;> simp [addExtension, hx']
      · constructor <;> simp [addExtension, hx', hf]
    have h1a := (hstep m hx).1
    have h1b := (hstep m hx).2
    have hx2 : x ∈ (addExtension m x).allowedExts := by rw [h1b]; exact hx
    have h2a := (hstep (addExtension m x) hx2).1
    have hc1 : (insertStr m.spirvExt (extName x)).count (extName x) = 1 := by
      simp [insertStr, hn, List.count_append, hcount0, List.count_cons]
    by_cases hf : x = ExtId.SPV_EXT_shader_atomic_float16_add
    · have hne : extName x ≠ extName ExtId.SPV_EXT_shader_atomic_float_add := by
        subst hf; decide
      rw [if_pos hf] at h1a h2a
      have hcE1 : (addExtension m x).spirvExt.count (extName x) = 1 := by
        rw [h1a, count_insertStr_ne _ _ _ hne, hc1]
      have hmem : extName x ∈ (addExtension m x).spirvExt := by
        rw [h1a]
        exact mem_insertStr_of_mem _ _ _ (mem_insertStr_self _ _)
      have hmem2 : extName ExtId.SPV_EXT_shader_atomic_float_add ∈
          (addExtension m x).spirvExt := by
        rw [h1a]
        exact mem_insertStr_self _ _
      rw [h2a, insertStr_of_mem _ _ hmem,
          insertStr_of_mem _ _ hmem2, hcE1]
    · rw [if_neg hf] at h1a h2a
      have hmem : extName x ∈ (addExtension m x).spirvExt := by
        rw [h1a]
        exact mem_insertStr_self _ _
      rw [h2a, insertStr_of_mem _ _ hmem, h1a, hc1]

/-- C7 witness: concrete allowed and disallowed requests. -/
theorem addExtension_gate_spec_witness :
    ((addExtension (initModuleOpts [ExtId.SPV_KHR_expect_assume] 0x10600)
        ExtId.SPV_INTEL_inline_assembly).isValid = false) ∧
    ((addExtension (addExtension (initModuleOpts [ExtId.SPV_KHR_expect_assume] 0x10600)
        ExtId.SPV_KHR_expect_assume) ExtId.SPV_KHR_expect_assume).spirvExt.count
        (extName ExtId.SPV_KHR_expect_assume) = 1) :=
  ⟨(addExtension_gate_spec.1 _ _ (by decide)).2.1,
   addExtension_gate_spec.2 _ _ (by decide) (by decide)⟩

/-! ## C9: `exist` and `getEntry` disagree on forward-declared pointer ids -/

/-- C9: an id registered only as the pointer-id target of an
OpTypeForwardPointer entry (which itself carries no id) is invisible to
`exist` but resolvable through `getEntry`, which returns the placeholder. -/
theorem exist_getEntry_disagree (m : SPIRVModule) (e : SPIRVEntry) (k : Nat)
    (he : e.hasId = false) (hop : e.opcode = Op.OpTypeForwardPointer)
    (hpid : e.pointerId = k)
    (hrc : e.requiredCaps = []) (hre : e.requiredExt = none)
    (hk : alookup m.idEntryMap k = none) :
    exist (addNew m e).2 k = false ∧
    getEntry (addNew m e).2 k = some (addNew m e).1 := by
  simp [addNew, newEntity, addEntry, getEnt, get_concat_length, he, hop, hpid,
        hrc, hre, layoutEntry, isTypeOpCode, isConstantOpCode, exist, getEntry,
        hk, alookup_ainsert_self]

/-- C9 witness: a concrete OpTypeForwardPointer registration. -/
theorem exist_getEntry_disagree_witness :
    exist (addNew initModule
      { opcode := Op.OpTypeForwardPointer, hasId := false, pointerId := 9 }).2 9
        = false ∧
    getEntry (addNew initModule
      { opcode := Op.OpTypeForwardPointer, hasId := false, pointerId := 9 }).2 9
        = some (addNew initModule
      { opcode := Op.OpTypeForwardPointer, hasId := false, pointerId := 9 }).1 :=
  exist_getEntry_disagree initModule _ 9 rfl rfl rfl rfl rfl (by decide)

/-! ## C8: binary header validation -/

/-- The failure condition of the five-word header: too short (an eof/fail on
the header read), wrong magic number, version outside the known range,
version above the configured maximum, or a non-default instruction schema. -/
def badHeader (m : SPIRVModule) (input : List Nat) : Prop :=
  input.length < 5 ∨
  input.getD 0 0 ≠ MagicNumber ∨
  isSPIRVVersionKnown (input.getD 1 0) = false ∨
  m.maxVersion < input.getD 1 0 ∨
  input.getD 4 0 ≠ SPIRVISCH_Default

instance (m : SPIRVModule) (input : List Nat) : Decidable (badHeader m input) := by
  unfold badHeader
  exact inferInstance

/-- C8: the binary read path validates the five-word header — exact magic
number, version within the known range and not above the configured maximum,
default instruction schema — and on any failure (including an input shorter
than the header) marks the module invalid, records exactly one structured
error, and returns before consuming any instruction (no entity is registered
and no instruction words are handed on); a well-formed header is accepted. -/
theorem parseSPIRVHeader_spec (m : SPIRVModule) (input : List Nat) :
    (badHeader m input →
       (parseSPIRVHeader m input).2 = none ∧
       (parseSPIRVHeader m input).1.isValid = false ∧
       (parseSPIRVHeader m input).1.errors.length = m.errors.length + 1 ∧
       (parseSPIRVHeader m input).1.arena = m.arena ∧
       (parseSPIRVHeader m input).1.idEntryMap = m.idEntryMap) ∧
    (¬ badHeader m input →
       (parseSPIRVHeader m input).2 = some (input.drop 5) ∧
       (parseSPIRVHeader m input).1.isValid = m.isValid ∧
       (parseSPIRVHeader m input).1.spirvVersion = input.getD 1 0) := by
  rcases input with _ | ⟨h0, _ | ⟨h1, _ | ⟨h2, _ | ⟨h3, _ | ⟨h4, rest⟩⟩⟩⟩⟩
  · exact ⟨fun _ => by simp [parseSPIRVHeader], fun hg => absurd (by simp [badHeader]) hg⟩
  · exact ⟨fun _ => by simp [parseSPIRVHeader], fun hg => absurd (by simp [badHeader]) hg⟩
  · exact ⟨fun _ => by simp [parseSPIRVHeader], fun hg => absurd (by simp [badHeader]) hg⟩
  · exact ⟨fun _ => by simp [parseSPIRVHeader], fun hg => absurd (by simp [badHeader]) hg⟩
  · exact ⟨fun _ => by simp [parseSPIRVHeader], fun hg => absurd (by simp [badHeader]) hg⟩
  · constructor
    · intro hbad
      by_cases c0 : h0 = MagicNumber
      · by_cases c1 : isSPIRVVersionKnown h1 = true
        · by_cases c2 : h1 ≤ m.maxVersion
          · by_cases c4 : h4 = SPIRVISCH_Default
            · exfalso
              simp [badHeader, List.getD, c0, c1, c4] at hbad
              omega
            · simp [parseSPIRVHeader, c0, c1, isAllowedToUseVersion, c2, c4]
          · simp [parseSPIRVHeader, c0, c1, isAllowedToUseVersion, c2]
        · simp [parseSPIRVHeader, c0, c1]
      · simp [parseSPIRVHeader, c0]
    · intro hgood
      simp [badHeader, List.getD] at hgood
      obtain ⟨c0, c1, c2, c4⟩ := hgood
      simp [parseSPIRVHeader, c0, c1, isAllowedToUseVersion, c2, c4, List.getD]

/-- C8 witness: a concrete bad-magic header and a concrete good header. -/
theorem parseSPIRVHeader_spec_witness :
    ((parseSPIRVHeader initModule [1, 0x10000, 0, 20, 0]).2 = none ∧
     (parseSPIRVHeader initModule [1, 0x10000, 0, 20, 0]).1.isValid = false) ∧
    (parseSPIRVHeader initModule
        [0x07230203, 0x10000, 0, 20, 0, 77]).2 = some [77] :=
  ⟨(((parseSPIRVHeader_spec initModule [1, 0x10000, 0, 20, 0]).1) (by decide)).imp
      id (fun h => h.1),
   (((parseSPIRVHeader_spec initModule [0x07230203, 0x10000, 0, 20, 0, 77]).2)
      (by decide)).1⟩

/-! ## C6: reference erasure -/

theorem not_mem_eraseNat_self (l : List Nat) (x : Nat) : x ∉ eraseNat l x := by
  simp [eraseNat]

/-- C6 (amended): for an id resolving to an id-carrying entity,
`eraseReferencesOfInst` returns true and removes the name entry, every
member-name row targeting the id, every (flat) decoration targeting it, and —
when the entity is a function — every entry-point row targeting it.
Group-decorate membership rows are not removed (see the counterexample). -/
theorem eraseReferencesOfInst_spec (m : SPIRVModule) (k idx : Nat)
    (hget : getEntry m k = some idx) (hid : (getEnt m idx).hasId = true) :
    (eraseReferencesOfInst m k).1 = true ∧
    k ∉ (eraseReferencesOfInst m k).2.namedId ∧
    (∀ d ∈ (eraseReferencesOfInst m k).2.memberNameVec,
      (getEnt (eraseReferencesOfInst m k).2 d).targetId ≠ k) ∧
    (∀ d ∈ (eraseReferencesOfInst m k).2.decorateVec,
      (getEnt (eraseReferencesOfInst m k).2 d).targetId ≠ k) ∧
    ((getEnt m idx).opcode = Op.OpFunction →
      ∀ d ∈ (eraseReferencesOfInst m k).2.entryPointVec,
        (getEnt (eraseReferencesOfInst m k).2 d).targetId ≠ k) := by
  by_cases hop : (getEnt m idx).opcode = Op.OpFunction
  · simp only [getEnt, List.get?_eq_getElem?] at hid hop
    simp [eraseReferencesOfInst, hget, hid, hop, getEnt, eraseNat,
          List.mem_filter]
  · simp only [getEnt, List.get?_eq_getElem?] at hid hop
    simp [eraseReferencesOfInst, hget, hid, hop, getEnt, eraseNat,
          List.mem_filter]

/-- C6 witness: erasing the references of a concrete function id. -/
theorem eraseReferencesOfInst_spec_witness :
    (eraseReferencesOfInst mC6 7).1 = true ∧
    7 ∉ (eraseReferencesOfInst mC6 7).2.namedId :=
  ⟨(eraseReferencesOfInst_spec mC6 7 0 (by decide) (by decide)).1,
   (eraseReferencesOfInst_spec mC6 7 0 (by decide) (by decide)).2.1⟩

/-- C6 counterexample: `eraseReferencesOfInst` succeeds on a function id that
is a target of a group-decorate row, yet the group membership row still
references the erased id afterwards — the claim's "removes every
decoration-group membership row for K" is false on this input. -/
theorem eraseReferencesOfInst_group_rows_cex :
    (eraseReferencesOfInst mC6 7).1 = true ∧
    (eraseReferencesOfInst mC6 7).2.groupDecVec = [1] ∧
    7 ∈ (getEnt (eraseReferencesOfInst mC6 7).2 1).targetIds := by
  decide

/-! ## C3: forward placeholders are replaced by real entities -/

/-- The C3 scenario: on a fresh module, register a forward placeholder for id
`k` (addForward), name it, attach a decoration to id `k`, then register a real
entity carrying id `k`; returns the real entity's arena index and the final
module. -/
def forwardScenario (k : Nat) (nm : String) (p : Nat) : Nat × SPIRVModule :=
  addNew (addDecorateM (setNameM (addForwardId ({} : SPIRVModule) k none).2
      (addForwardId ({} : SPIRVModule) k none).1 nm) k p)
    { opcode := Op.OpTypeVoid, hasId := true, id := k }

/-- State after registering the forward placeholder. -/
def c3M1 (k : Nat) : SPIRVModule :=
  { arena := [{ opcode := Op.OpForward, id := k }],
    idEntryMap := [(k, 0)] }

/-- State after naming the placeholder. -/
def c3M2 (k : Nat) (nm : String) : SPIRVModule :=
  { arena := [{ opcode := Op.OpForward, id := k, name := some nm }],
    idEntryMap := [(k, 0)], namedId := [k] }

/-- State after decorating id `k`. -/
def c3M3 (k : Nat) (nm : String) (p : Nat) : SPIRVModule :=
  { arena := [
      { opcode := Op.OpForward, id := k, name := some nm, decorationsE := [p] },
      { opcode := Op.OpDecorate, hasId := false, targetId := k, value := p } ],
    idEntryMap := [(k, 0)], entryNoId := [1], decorateVec := [1],
    namedId := [k] }

/-- Final state: the real entity (arena index 2) replaced the forward and owns
its annotations. -/
def c3M4 (k : Nat) (nm : String) (p : Nat) : SPIRVModule :=
  { arena := [
      { opcode := Op.OpForward, id := k, name := some nm, decorationsE := [p] },
      { opcode := Op.OpDecorate, hasId := false, targetId := k, value := p },
      { opcode := Op.OpTypeVoid, id := k, name := some nm, decorationsE := [p] } ],
    idEntryMap := [(k, 2)], entryNoId := [1], typeVec := [2],
    decorateVec := [1], namedId := [k] }

/-- The C3 mismatched-id scenario: a forward with id `k` (arena index 0), a
real entity constructed with a different id `k'` and registered under it
(arena index 1), and a decoration targeting `k'` (arena index 2);
`replaceForward` is then invoked directly, as the source allows. -/
def replaceScenario (k k' : Nat) : SPIRVModule :=
  replaceForward
    { arena := [
        { opcode := Op.OpForward, hasId := true, id := k },
        { opcode := Op.OpTypeVoid, hasId := true, id := k' },
        { opcode := Op.OpDecorate, hasId := false, targetId := k' } ],
      idEntryMap := [(k, 0), (k', 1)], decorateVec := [2] } 0 1

/-- Expected result of the mismatched-id scenario. -/
def c3R (k : Nat) : SPIRVModule :=
  { arena := [
      { opcode := Op.OpForward, hasId := true, id := k },
      { opcode := Op.OpTypeVoid, hasId := true, id := k },
      { opcode := Op.OpDecorate, hasId := false, targetId := k } ],
    idEntryMap := [(k, 1)], decorateVec := [2] }

theorem forwardScenario_s1 (k : Nat) :
    addForwardId ({} : SPIRVModule) k none = (0, c3M1 k) := by
  simp [addForwardId, addNew, newEntity, addEntry, getEnt, alookup, ainsert,
        layoutEntry, isTypeOpCode, isConstantOpCode, c3M1]

theorem forwardScenario_s2 (k : Nat) (nm : String) (hnm : nm ≠ "") :
    setNameM (c3M1 k) 0 nm = c3M2 k nm := by
  simp [setNameM, updEnt, getEnt, insertNat, hnm, c3M1, c3M2]

theorem forwardScenario_s3 (k : Nat) (nm : String) (p : Nat) :
    addDecorateM (c3M2 k nm) k p = c3M3 k nm p := by
  simp [addDecorateM, addNew, newEntity, addEntry, getEnt, alookup, ainsert,
        layoutEntry, isTypeOpCode, isConstantOpCode, updEnt, c3M2, c3M3]

theorem forwardScenario_s4 (k : Nat) (nm : String) (p : Nat) :
    addNew (c3M3 k nm p) { opcode := Op.OpTypeVoid, hasId := true, id := k } =
      (2, c3M4 k nm p) := by
  simp [addNew, newEntity, addEntry, getEnt, alookup, ainsert, layoutEntry,
        isTypeOpCode, isConstantOpCode, replaceForward, updEnt, takeAnnots,
        c3M3, c3M4]

theorem replaceScenario_eval (k k' : Nat) (hne : k ≠ k') :
    replaceScenario k k' = c3R k := by
  simp [replaceScenario, replaceForward, getEnt, updEnt, aerase, ainsert,
        alookup, retargetDecorates, hne, Ne.symm hne, c3R]

/-- C3: registering a forward placeholder for id `k`, naming and decorating
it, and then registering a real entity carrying id `k` leaves exactly one
registry row for `k`, mapped to the real entity, which has received the
placeholder's name and decoration; and when `replaceForward` is handed a real
entity whose id differs from the forward's id, the real entity adopts the
forward's id (the registry row for the old id disappears) and decorations
referencing the old id are retargeted to the forward's id. -/
theorem forward_replacement_spec :
    (∀ (k : Nat) (nm : String) (p : Nat), nm ≠ "" →
       alookup (forwardScenario k nm p).2.idEntryMap k =
         some (forwardScenario k nm p).1 ∧
       countKeys (forwardScenario k nm p).2.idEntryMap k = 1 ∧
       (getEnt (forwardScenario k nm p).2 (forwardScenario k nm p).1).name =
         some nm ∧
       p ∈ (getEnt (forwardScenario k nm p).2 (forwardScenario k nm p).1).decorationsE) ∧
    (∀ (k k' : Nat), k ≠ k' →
       (getEnt (replaceScenario k k') 1).id = k ∧
       alookup (replaceScenario k k').idEntryMap k = some 1 ∧
       alookup (replaceScenario k k').idEntryMap k' = none ∧
       (getEnt (replaceScenario k k') 2).targetId = k) := by
  constructor
  · intro k nm p hnm
    have hs : forwardScenario k nm p = (2, c3M4 k nm p) := by
      rw [forwardScenario, forwardScenario_s1, forwardScenario_s2 k nm hnm,
          forwardScenario_s3, forwardScenario_s4]
    rw [hs]
    refine ⟨?_, ?_, ?_, ?_⟩ <;> simp [alookup, countKeys, getEnt, c3M4]
  · intro k k' hne
    rw [replaceScenario_eval k k' hne]
    refine ⟨?_, ?_, ?_, ?_⟩ <;> simp [alookup, getEnt, c3R, hne]

/-- C3 witness: the scenarios at concrete inputs. -/
theorem forward_replacement_spec_witness :
    (countKeys (forwardScenario 5 "foo" 11).2.idEntryMap 5 = 1 ∧
     (getEnt (forwardScenario 5 "foo" 11).2 (forwardScenario 5 "foo" 11).1).name =
       some "foo") ∧
    (getEnt (replaceScenario 4 6) 2).targetId = 4 :=
  ⟨⟨((forward_replacement_spec.1 5 "foo" 11) (by decide)).2.1,
    ((forward_replacement_spec.1 5 "foo" 11) (by decide)).2.2.1⟩,
   ((forward_replacement_spec.2 4 6) (by decide)).2.2.2⟩

/-! ## C5: deduplication caches -/

theorem addIntegerType_hit (m : SPIRVModule) (w t : Nat)
    (h : alookup m.intTypeMap w = some t) : addIntegerType m w = (t, m) := by
  simp [addIntegerType, h]

theorem getLiteralAsConstant_hit (m : SPIRVModule) (lit c : Nat)
    (h : alookup m.literalMap lit = some c) :
    getLiteralAsConstant m lit = (c, m) := by
  simp [getLiteralAsConstant, h]

theorem addIntegerType_miss_eval (m : SPIRVModule) (w : Nat)
    (hmiss : alookup m.intTypeMap w = none)
    (hfresh : alookup m.idEntryMap m.nextId = none) :
    addIntegerType m w =
      (m.arena.length,
       { m with
           arena := m.arena ++ [{ opcode := Op.OpTypeInt, id := m.nextId, width := w }],
           nextId := m.nextId + 1,
           idEntryMap := ainsert m.idEntryMap m.nextId m.arena.length,
           typeVec := m.typeVec ++ [m.arena.length],
           intTypeMap := ainsert m.intTypeMap w m.arena.length }) := by
  simp [addIntegerType, hmiss, getId, isValidId, SPIRVID_INVALID, newEntity,
        addType, addEntry, getEnt, get_concat_length, hfresh, layoutEntry,
        isTypeOpCode, isConstantOpCode]

theorem addIntegerType_caches (m : SPIRVModule) (w : Nat)
    (hfresh : alookup m.idEntryMap m.nextId = none) :
    alookup (addIntegerType m w).2.intTypeMap w = some (addIntegerType m w).1 := by
  cases hmt : alookup m.intTypeMap w with
  | some t => simp [addIntegerType_hit m w t hmt, hmt]
  | none =>
      rw [addIntegerType_miss_eval m w hmt hfresh]
      simp [alookup_ainsert_self]

theorem addIntegerType_fix (m : SPIRVModule) (w : Nat)
    (hfresh : alookup m.idEntryMap m.nextId = none) :
    addIntegerType (addIntegerType m w).2 w = addIntegerType m w := by
  rw [addIntegerType_hit (addIntegerType m w).2 w (addIntegerType m w).1
        (addIntegerType_caches m w hfresh)]

theorem getLiteralAsConstant_caches (m : SPIRVModule) (lit : Nat)
    (hfr : ∀ j, m.nextId ≤ j → alookup m.idEntryMap j = none) :
    alookup (getLiteralAsConstant m lit).2.literalMap lit =
      some (getLiteralAsConstant m lit).1 := by
  cases hml : alookup m.literalMap lit with
  | some c => simp [getLiteralAsConstant, hml]
  | none =>
      have key : ∃ t1 M1, addIntegerType m 32 = (t1, M1) ∧
          alookup M1.idEntryMap M1.nextId = none := by
        cases hmt : alookup m.intTypeMap 32 with
        | some t =>
            exact ⟨t, m, addIntegerType_hit m 32 t hmt, hfr _ (le_refl _)⟩
        | none =>
            refine ⟨m.arena.length, _,
              addIntegerType_miss_eval m 32 hmt (hfr _ (le_refl _)), ?_⟩
            have hne : m.nextId ≠ m.nextId + 1 := by omega
            simp [alookup_ainsert_ne _ _ _ _ hne]
            exact hfr _ (by omega)
      obtain ⟨t1, M1, hpair, hid1⟩ := key
      simp [getLiteralAsConstant, hml, hpair, getId, isValidId,
            SPIRVID_INVALID, newEntity, addEntry, getEnt, get_concat_length,
            hid1, layoutEntry, isTypeOpCode, isConstantOpCode,
            alookup_ainsert_self]

theorem getLiteralAsConstant_fix (m : SPIRVModule) (lit : Nat)
    (hfr : ∀ j, m.nextId ≤ j → alookup m.idEntryMap j = none) :
    getLiteralAsConstant (getLiteralAsConstant m lit).2 lit =
      getLiteralAsConstant m lit := by
  rw [getLiteralAsConstant_hit (getLiteralAsConstant m lit).2 lit
        (getLiteralAsConstant m lit).1 (getLiteralAsConstant_caches m lit hfr)]

/-- C5 (amended): both caches are idempotent — a second identical request
returns the same instance and leaves the module (including the id counter)
untouched; a missed integer-type request grows the type collection by exactly
one, and requesting width 32 twice still grows it by exactly one; a missed
literal request registers exactly one new constant (materializing, at most
once, the 32-bit integer type through its own cache as well). -/
theorem dedup_cache_spec :
    (∀ (m : SPIRVModule) (w : Nat), alookup m.idEntryMap m.nextId = none →
       addIntegerType (addIntegerType m w).2 w = addIntegerType m w) ∧
    (∀ (m : SPIRVModule), alookup m.intTypeMap 32 = none →
       alookup m.idEntryMap m.nextId = none →
       (addIntegerType m 32).2.typeVec.length = m.typeVec.length + 1 ∧
       (addIntegerType (addIntegerType m 32).2 32).2.typeVec.length =
         m.typeVec.length + 1) ∧
    (∀ (m : SPIRVModule) (lit : Nat),
       (∀ j, m.nextId ≤ j → alookup m.idEntryMap j = none) →
       getLiteralAsConstant (getLiteralAsConstant m lit).2 lit =
         getLiteralAsConstant m lit ∧
       (getLiteralAsConstant (getLiteralAsConstant m lit).2 lit).2.nextId =
         (getLiteralAsConstant m lit).2.nextId) := by
  refine ⟨?_, ?_, ?_⟩
  · intro m w hfresh
    exact addIntegerType_fix m w hfresh
  · intro m hmiss hfresh
    constructor
    · rw [addIntegerType_miss_eval m 32 hmiss hfresh]
      simp
    · rw [addIntegerType_fix m 32 hfresh,
          addIntegerType_miss_eval m 32 hmiss hfresh]
      simp
  · intro m lit hfr
    refine ⟨getLiteralAsConstant_fix m lit hfr, ?_⟩
    rw [getLiteralAsConstant_fix m lit hfr]

/-- C5 witness: the caches on a fresh module. -/
theorem dedup_cache_spec_witness :
    addIntegerType (addIntegerType initModule 32).2 32 =
      addIntegerType initModule 32 ∧
    (addIntegerType initModule 32).2.typeVec.length =
      initModule.typeVec.length + 1 :=
  ⟨dedup_cache_spec.1 initModule 32 (by decide),
   (dedup_cache_spec.2.1 initModule (by decide) (by decide)).1⟩

/-- C5 counterexample: a first `getLiteralAsConstant` request on a fresh
module adds two entities (the 32-bit integer type and the constant), not "at
most one new entity" as the claim states. -/
theorem dedup_two_entities_cex :
    initModule.arena.length = 0 ∧
    (getLiteralAsConstant initModule 7).2.arena.length = 2 := by
  decide

/-! ## Positions in the emitted stream -/

/-- Index of the first occurrence of `x` (length of the list when absent). -/
def idxN : List Nat → Nat → Nat
  | [], _ => 0
  | a :: t, x => if a = x then 0 else idxN t x + 1

theorem idxN_lt_length {l : List Nat} {x : Nat} (h : x ∈ l) :
    idxN l x < l.length := by
  induction l with
  | nil => simp at h
  | cons a t ih =>
      by_cases ha : a = x
      · simp [idxN, ha]
      · rcases List.mem_cons.mp h with rfl | hm
        · simp at ha
        · simp [idxN, ha]
          exact ih hm

theorem idxN_append_left {l₁ : List Nat} (l₂ : List Nat) {x : Nat}
    (h : x ∈ l₁) : idxN (l₁ ++ l₂) x = idxN l₁ x := by
  induction l₁ with
  | nil => simp at h
  | cons a t ih =>
      by_cases ha : a = x
      · simp [idxN, ha]
      · rcases List.mem_cons.mp h with rfl | hm
        · simp at ha
        · simp [idxN, ha, ih hm]

theorem idxN_append_right {l₁ : List Nat} (l₂ : List Nat) {x : Nat}
    (h : x ∉ l₁) : idxN (l₁ ++ l₂) x = l₁.length + idxN l₂ x := by
  induction l₁ with
  | nil => simp
  | cons a t ih =>
      have ha : a ≠ x := fun hax => h (hax ▸ List.mem_cons_self a t)
      have ht : x ∉ t := fun hm => h (List.mem_cons_of_mem a hm)
      simp [idxN, ha, ih ht]
      omega

theorem idxN_le_of_get {l : List Nat} {i x : Nat} (h : l.get? i = some x) :
    idxN l x ≤ i := by
  induction l generalizing i with
  | nil => simp at h
  | cons a t ih =>
      cases i with
      | zero =>
          simp at h
          simp [idxN, h]
      | succ j =>
          by_cases ha : a = x
          · simp [idxN, ha]
          · simp [idxN, ha]
            have := ih (by simpa using h)
            omega

theorem mem_of_get {l : List Nat} {i x : Nat} (h : l.get? i = some x) :
    x ∈ l := by
  induction l generalizing i with
  | nil => simp at h
  | cons a t ih =>
      cases i with
      | zero => simp at h; simp [h]
      | succ j => exact List.mem_cons_of_mem a (ih (by simpa using h))

/-- The synthesized forward-pointer declarations of a completed run, as
(opcode, pointer id) pairs read back from the module's emission list. -/
def runFwdDecls (m : SPIRVModule) (fuel : Nat) : List (Op × Nat) :=
  match runSort m fuel with
  | SortOut.done st => (finishSort st).forwardPointerVec.map
      (fun i => ((getEnt (finishSort st) i).opcode, (getEnt (finishSort st) i).pointerId))
  | _ => []

/-- C2 (amended): for the recursive-struct module `mGood` — struct S (id 2,
arena 0) whose two members are the pointer P (id 3, arena 1) back to S, the
struct's id preceding the pointer's — sorting succeeds without the fatal
branch, exactly one ForwardPointer declaration is appended (deduplicated by
pointer id even though the cycle is broken twice), the forward declaration is
emitted before the sorted type stream, and P's real definition appears inside
that stream, after S. -/
theorem recursive_struct_sort_spec :
    runDone mGood 40 = true ∧
    runFwdPids mGood 40 = [3] ∧
    runFwdDecls mGood 40 = [(Op.OpTypeForwardPointer, 3)] ∧
    runStream mGood 40 = [0, 1] ∧
    runEmitTCV mGood 40 = [2, 0, 1] ∧
    (getEnt mGood 1).opcode = Op.OpTypePointer ∧
    (getEnt mGood 1).id = 3 ∧
    (getEnt mGood 0).opcode = Op.OpTypeStruct ∧
    1 ∈ nonLitOps mGood 0 := by
  decide

/-- C2 counterexample: the same recursive-struct module with the ids swapped
(`mBad`: pointer id 2 below struct id 3).  Sorting succeeds and synthesizes
the forward declaration, but the pointer's real OpTypePointer definition is
never emitted into the sorted stream, contradicting the claim that the real
pointer-type definition appears inside the stream for every module containing
a struct with a pointer-to-itself member. -/
theorem recursive_struct_pointer_dropped_cex :
    runDone mBad 40 = true ∧
    runFwdPids mBad 40 = [2] ∧
    (getEnt mBad 1).opcode = Op.OpTypePointer ∧
    (getEnt mBad 1).id = 2 ∧
    (getEnt mBad 0).opcode = Op.OpTypeStruct ∧
    1 ∈ nonLitOps mBad 0 ∧
    runStream mBad 40 = [0] ∧
    1 ∉ runStream mBad 40 := by
  decide

/-- C1 counterexample: in `mCex` the integer-typed OpSpecConstantOp (arena 3)
is emitted in ConstIntVec at stream position 1, while its non-literal value
operand (arena 2, a float-typed constant, not a pointer and not covered by
any ForwardPointer placeholder — none are synthesized) first appears at
stream position 3: the operand does not precede its user in the concatenated
stream. -/
theorem sorted_stream_order_cex :
    runDone mCex 40 = true ∧
    runFwdPids mCex 40 = [] ∧
    (runStream mCex 40).get? 1 = some 3 ∧
    2 ∈ nonLitOps mCex 3 ∧
    redirectOp mCex 2 = 2 ∧
    isPtrOpcode (getEnt mCex 2).opcode = false ∧
    idxN (runStream mCex 40) 2 = 3 := by
  decide

/-! ## Well-formedness of a module w.r.t. the topological sort -/

theorem alookup_mem {α : Type} {l : List (Nat × α)} {k : Nat} {v : α}
    (h : alookup l k = some v) : (k, v) ∈ l := by
  induction l with
  | nil => simp [alookup] at h
  | cons p t ih =>
      obtain ⟨pk, pv⟩ := p
      by_cases hp : pk = k
      · simp [alookup, hp] at h
        subst hp
        subst h
        exact List.mem_cons_self _ _
      · simp [alookup, hp] at h
        exact List.mem_cons_of_mem _ (ih h)

/-- Well-formedness of a module as input to TopologicalSort: root and
registry indices are in range, operand references are in range,
forward-pointer operands resolve through the id registry, distinct
id-carrying entities have distinct ids (EntryStateMap is keyed by id), and —
the section-monotonicity condition of the amended C1 — no entity's redirected
operand is classified into a strictly later output section than the entity
itself. -/
structure SortWF (m : SPIRVModule) : Prop where
  rootsLt : ∀ r ∈ (m.typeVec ++ m.constVec) ++ m.variableVec, r < m.arena.length
  idMapLt : ∀ p ∈ m.idEntryMap, p.2 < m.arena.length
  opsLt : ∀ i, i < m.arena.length → ∀ op ∈ nonLitOps m i, op < m.arena.length
  fwdRes : ∀ i, i < m.arena.length → ∀ op ∈ nonLitOps m i,
    (getEnt m op).opcode = Op.OpTypeForwardPointer →
    (alookup m.idEntryMap (getEnt m op).pointerId).isSome = true
  secMono : ∀ i, i < m.arena.length → ∀ op ∈ nonLitOps m i,
    rankOf m (redirectOp m op) ≤ rankOf m i
  idsNodup : ∀ i, i < m.arena.length → ∀ j, j < m.arena.length → i ≠ j →
    (getEnt m i).hasId = true → (getEnt m j).hasId = true →
    (getEnt m i).id ≠ (getEnt m j).id

/-- An operand reference suitable for redirection: in range, and resolvable
through the id registry when it is a forward-pointer placeholder. -/
def opOK (m : SPIRVModule) (o : Nat) : Prop :=
  o < m.arena.length ∧
  ((getEnt m o).opcode = Op.OpTypeForwardPointer →
    (alookup m.idEntryMap (getEnt m o).pointerId).isSome = true)

theorem opOK_of_wf {m : SPIRVModule} (wf : SortWF m) {i : Nat}
    (hi : i < m.arena.length) {op : Nat} (hop : op ∈ nonLitOps m i) :
    opOK m op :=
  ⟨wf.opsLt i hi op hop, wf.fwdRes i hi op hop⟩

theorem getEnt_prefix {m0 mx : SPIRVModule} (hA : ∃ u, mx.arena = m0.arena ++ u)
    {i : Nat} (hi : i < m0.arena.length) : getEnt mx i = getEnt m0 i := by
  obtain ⟨u, hu⟩ := hA
  simp only [getEnt, hu, List.get?_eq_getElem?]
  rw [List.getElem?_append_left hi]

theorem nonLitOps_prefix {m0 mx : SPIRVModule}
    (hA : ∃ u, mx.arena = m0.arena ++ u) {i : Nat}
    (hi : i < m0.arena.length) : nonLitOps mx i = nonLitOps m0 i := by
  simp [nonLitOps, getEnt_prefix hA hi]

theorem redirect_agree {m0 mx : SPIRVModule}
    (hA : ∃ u, mx.arena = m0.arena ++ u) (hmap : mx.idEntryMap = m0.idEntryMap)
    {o : Nat} (hOK : opOK m0 o) (wf : SortWF m0) :
    redirectOp mx o = redirectOp m0 o ∧ redirectOp m0 o < m0.arena.length := by
  have hge := getEnt_prefix hA hOK.1
  by_cases hop : (getEnt m0 o).opcode = Op.OpTypeForwardPointer
  · obtain ⟨v, hv⟩ := Option.isSome_iff_exists.mp (hOK.2 hop)
    have hvlt : v < m0.arena.length := wf.idMapLt _ (alookup_mem hv)
    constructor
    · simp [redirectOp, hge, hop, getEntry, hmap, hv]
    · simp [redirectOp, hge, hop, getEntry, hv, hvlt]
  · constructor
    · simp [redirectOp, hge, hop]
    · simp [redirectOp, hop]
      exact hOK.1

theorem rank_le3 (m : SPIRVModule) (i : Nat) : rankOf m i ≤ 3 := by
  unfold rankOf
  dsimp only
  split_ifs <;> omega

theorem rankOf_prefix {m0 mx : SPIRVModule}
    (hA : ∃ u, mx.arena = m0.arena ++ u) (wf : SortWF m0) {i : Nat}
    (hi : i < m0.arena.length) : rankOf mx i = rankOf m0 i := by
  have hge := getEnt_prefix hA hi
  unfold rankOf constTypeIsInt
  dsimp only
  rw [hge]
  cases hty : (getEnt m0 i).ty with
  | none => simp [hty]
  | some t =>
      have htlt : t < m0.arena.length := by
        apply wf.opsLt i hi t
        simp [nonLitOps, hty]
      simp [hty, getEnt_prefix hA htlt]

/-! ## Monotone evolution of traversal states -/

/-- Membership in one of the four output vectors of a traversal state. -/
def appMem (st : TS) (r : Nat) : Prop :=
  r ∈ st.tiVec ∨ r ∈ st.ciVec ∨ r ∈ st.tVec ∨ r ∈ st.cvVec

/-- The pointer ids carried by the forward-pointer set. -/
def fwdIds (st : TS) : List Nat := st.fwdSet.map Prod.fst

/-- The output vector a given section rank selects. -/
def bucketL (st : TS) (k : Nat) : List Nat :=
  match k with
  | 0 => st.tiVec
  | 1 => st.ciVec
  | 2 => st.tVec
  | _ => st.cvVec

/-- Offset of a section's vector inside the concatenated stream. -/
def offL (st : TS) (k : Nat) : Nat :=
  match k with
  | 0 => 0
  | 1 => st.tiVec.length
  | 2 => st.tiVec.length + st.ciVec.length
  | _ => st.tiVec.length + st.ciVec.length + st.tVec.length

/-- A visited operand is discharged: either already appended to an output
vector, or a pointer type whose id has a synthesized forward declaration. -/
def opSat (m0 : SPIRVModule) (st : TS) (r : Nat) : Prop :=
  appMem st r ∨
    (isPtrOpcode (getEnt m0 r).opcode = true ∧ (getEnt m0 r).id ∈ fwdIds st)

/-- Monotone evolution between two traversal states: the output vectors and
the forward-pointer set only grow at the tail, the id registry is untouched
and the arena only grows. -/
structure TSLe (a b : TS) : Prop where
  ti : ∃ u, b.tiVec = a.tiVec ++ u
  ci : ∃ u, b.ciVec = a.ciVec ++ u
  tv : ∃ u, b.tVec = a.tVec ++ u
  cv : ∃ u, b.cvVec = a.cvVec ++ u
  fw : ∃ u, b.fwdSet = a.fwdSet ++ u
  map : b.m.idEntryMap = a.m.idEntryMap
  ar : ∃ u, b.m.arena = a.m.arena ++ u

theorem TSLe.refl (a : TS) : TSLe a a :=
  ⟨⟨[], by simp⟩, ⟨[], by simp⟩, ⟨[], by simp⟩, ⟨[], by simp⟩, ⟨[], by simp⟩,
    rfl, ⟨[], by simp⟩⟩

theorem TSLe.trans {a b c : TS} (h1 : TSLe a b) (h2 : TSLe b c) : TSLe a c := by
  obtain ⟨⟨u1, e1⟩, ⟨u2, e2⟩, ⟨u3, e3⟩, ⟨u4, e4⟩, ⟨u5, e5⟩, e6, ⟨u7, e7⟩⟩ := h1
  obtain ⟨⟨v1, f1⟩, ⟨v2, f2⟩, ⟨v3, f3⟩, ⟨v4, f4⟩, ⟨v5, f5⟩, f6, ⟨v7, f7⟩⟩ := h2
  exact ⟨⟨u1 ++ v1, by simp [f1, e1]⟩, ⟨u2 ++ v2, by simp [f2, e2]⟩,
    ⟨u3 ++ v3, by simp [f3, e3]⟩, ⟨u4 ++ v4, by simp [f4, e4]⟩,
    ⟨u5 ++ v5, by simp [f5, e5]⟩, f6.trans e6, ⟨u7 ++ v7, by simp [f7, e7]⟩⟩

theorem appMem_mono {a b : TS} (h : TSLe a b) {r : Nat} (hr : appMem a r) :
    appMem b r := by
  obtain ⟨⟨u1, e1⟩, ⟨u2, e2⟩, ⟨u3, e3⟩, ⟨u4, e4⟩, _, _, _⟩ := h
  rcases hr with h1 | h2 | h3 | h4
  · exact Or.inl (by simp [e1, h1])
  · exact Or.inr (Or.inl (by simp [e2, h2]))
  · exact Or.inr (Or.inr (Or.inl (by simp [e3, h3])))
  · exact Or.inr (Or.inr (Or.inr (by simp [e4, h4])))

theorem fwdIds_mono {a b : TS} (h : TSLe a b) {x : Nat} (hx : x ∈ fwdIds a) :
    x ∈ fwdIds b := by
  obtain ⟨u, hu⟩ := h.fw
  simp [fwdIds, hu] at hx ⊢
  exact Or.inl hx

theorem opSat_mono {m0 : SPIRVModule} {a b : TS} (h : TSLe a b) {r : Nat}
    (hs : opSat m0 a r) : opSat m0 b r := by
  rcases hs with hm | ⟨hp, hf⟩
  · exact Or.inl (appMem_mono h hm)
  · exact Or.inr ⟨hp, fwdIds_mono h hf⟩

theorem setSt_m (st : TS) (i : Nat) (s : DFSState) : (setSt st i s).m = st.m := rfl

theorem getSt_setSt_self (st : TS) (i : Nat) (s : DFSState) :
    getSt (setSt st i s).smap i = s := by
  simp [getSt, setSt, alookup_ainsert_self]

theorem getSt_setSt_ne (st : TS) (i j : Nat) (s : DFSState) (h : j ≠ i) :
    getSt (setSt st i s).smap j = getSt st.smap j := by
  simp [getSt, setSt, alookup_ainsert_ne _ _ _ _ (fun he => h he.symm)]

theorem TSLe_setSt (st : TS) (i : Nat) (s : DFSState) : TSLe st (setSt st i s) :=
  ⟨⟨[], by simp [setSt]⟩, ⟨[], by simp [setSt]⟩, ⟨[], by simp [setSt]⟩,
    ⟨[], by simp [setSt]⟩, ⟨[], by simp [setSt]⟩, rfl, ⟨[], by simp [setSt]⟩⟩

theorem classify_m (st : TS) (i : Nat) : (classify st i).m = st.m := by
  unfold classify
  split <;> rfl

theorem classify_smap (st : TS) (i : Nat) : (classify st i).smap = st.smap := by
  unfold classify
  split <;> rfl

theorem classify_fwdSet (st : TS) (i : Nat) : (classify st i).fwdSet = st.fwdSet := by
  unfold classify
  split <;> rfl

theorem TSLe_classify (st : TS) (i : Nat) : TSLe st (classify st i) := by
  unfold classify
  split
  · exact ⟨⟨[i], by simp⟩, ⟨[], by simp⟩, ⟨[], by simp⟩, ⟨[], by simp⟩,
      ⟨[], by simp⟩, rfl, ⟨[], by simp⟩⟩
  · exact ⟨⟨[], by simp⟩, ⟨[i], by simp⟩, ⟨[], by simp⟩, ⟨[], by simp⟩,
      ⟨[], by simp⟩, rfl, ⟨[], by simp⟩⟩
  · exact ⟨⟨[], by simp⟩, ⟨[], by simp⟩, ⟨[i], by simp⟩, ⟨[], by simp⟩,
      ⟨[], by simp⟩, rfl, ⟨[], by simp⟩⟩
  · exact ⟨⟨[], by simp⟩, ⟨[], by simp⟩, ⟨[], by simp⟩, ⟨[i], by simp⟩,
      ⟨[], by simp⟩, rfl, ⟨[], by simp⟩⟩

theorem classify_bucket_self (st : TS) (i : Nat) :
    bucketL (classify st i) (rankOf st.m i) = bucketL st (rankOf st.m i) ++ [i] := by
  have h3 := rank_le3 st.m i
  obtain ⟨k, hk⟩ : ∃ k, rankOf st.m i = k := ⟨_, rfl⟩
  rw [hk] at h3 ⊢
  unfold classify
  rw [hk]
  interval_cases k <;> simp [bucketL]

theorem classify_bucket_ne (st : TS) (i : Nat) {k : Nat} (hk3 : k ≤ 3)
    (hne : k ≠ rankOf st.m i) : bucketL (classify st i) k = bucketL st k := by
  have h3 := rank_le3 st.m i
  obtain ⟨r, hr⟩ : ∃ r, rankOf st.m i = r := ⟨_, rfl⟩
  rw [hr] at h3 hne
  unfold classify
  rw [hr]
  interval_cases r <;> interval_cases k <;> simp_all [bucketL]

theorem getElem_concat_len {α : Type} (l : List α) (a : α) :
    (l ++ [a])[l.length]? = some a := by
  rw [List.getElem?_append_right (Nat.le_refl _)]
  simp

theorem getEnt_append_self (m : SPIRVModule) (e : SPIRVEntry) :
    getEnt { m with arena := m.arena ++ [e] } m.arena.length = e := by
  show ((m.arena ++ [e]).get? m.arena.length).getD {} = e
  rw [get_concat_length]
  rfl

theorem addNew_fwd (m : SPIRVModule) (pid sc : Nat) :
    (addNew m { opcode := Op.OpTypeForwardPointer, hasId := false, pointerId := pid, storageClass := sc }).2.idEntryMap = m.idEntryMap ∧
    (∃ u, (addNew m { opcode := Op.OpTypeForwardPointer, hasId := false, pointerId := pid, storageClass := sc }).2.arena = m.arena ++ u) := by
  constructor
  · simp [addNew, addEntry, newEntity, layoutEntry, getEnt, getElem_concat_len,
      isTypeOpCode, isConstantOpCode]
  · exact ⟨[{ opcode := Op.OpTypeForwardPointer, hasId := false, pointerId := pid, storageClass := sc }], by
      simp [addNew, addEntry, newEntity, layoutEntry, getEnt, getElem_concat_len,
        isTypeOpCode, isConstantOpCode]⟩

theorem breakCycle_facts (st : TS) (i : Nat) :
    (breakCycle st i).tiVec = st.tiVec ∧
    (breakCycle st i).ciVec = st.ciVec ∧
    (breakCycle st i).tVec = st.tVec ∧
    (breakCycle st i).cvVec = st.cvVec ∧
    (breakCycle st i).smap = st.smap ∧
    (∃ u, (breakCycle st i).fwdSet = st.fwdSet ++ u) ∧
    (breakCycle st i).m.idEntryMap = st.m.idEntryMap ∧
    (∃ u, (breakCycle st i).m.arena = st.m.arena ++ u) ∧
    (getEnt st.m i).id ∈ fwdIds (breakCycle st i) := by
  have haddm := addNew_fwd st.m (getEnt st.m i).id (getEnt st.m i).storageClass
  unfold breakCycle
  dsimp only
  split
  · rename_i hany
    refine ⟨rfl, rfl, rfl, rfl, rfl, ⟨[], by simp⟩, haddm.1, haddm.2, ?_⟩
    obtain ⟨p, hpmem, hp⟩ := List.any_eq_true.mp hany
    simp at hp
    exact List.mem_map.mpr ⟨p, hpmem, hp⟩
  · refine ⟨rfl, rfl, rfl, rfl, rfl, ⟨[((getEnt st.m i).id, st.m.arena.length)], rfl⟩,
      haddm.1, haddm.2, ?_⟩
    simp [fwdIds]

theorem TSLe_breakCycle (st : TS) (i : Nat) : TSLe st (breakCycle st i) := by
  obtain ⟨h1, h2, h3, h4, _, h6, h7, h8, _⟩ := breakCycle_facts st i
  exact ⟨⟨[], by simp [h1]⟩, ⟨[], by simp [h2]⟩, ⟨[], by simp [h3]⟩,
    ⟨[], by simp [h4]⟩, h6, h7, h8⟩

/-! ## The traversal invariant -/

/-- The invariant a traversal state maintains over a run on module `m0`: the
module component of the state extends `m0` only by synthesized entities and
keeps its id registry; appended entities are original ones filed in the
vector their section rank selects; Visited entities are appended; and every
appended entity's redirected operands are appended strictly earlier in their
shared section (or earlier sections), or are pointers with a synthesized
forward declaration. -/
structure TInv (m0 : SPIRVModule) (st : TS) : Prop where
  harena : ∃ u, st.m.arena = m0.arena ++ u
  hmap : st.m.idEntryMap = m0.idEntryMap
  lt : ∀ x, appMem st x → x < m0.arena.length
  rk : ∀ k, k ≤ 3 → ∀ x ∈ bucketL st k, rankOf m0 x = k
  vis : ∀ x, x < m0.arena.length → getSt st.smap x = DFSState.Visited → appMem st x
  ord : ∀ x, appMem st x → ∀ op ∈ nonLitOps m0 x,
    (appMem st (redirectOp m0 op) ∧
      (rankOf m0 (redirectOp m0 op) = rankOf m0 x →
        idxN (bucketL st (rankOf m0 x)) (redirectOp m0 op) <
          idxN (bucketL st (rankOf m0 x)) x)) ∨
    (isPtrOpcode (getEnt m0 (redirectOp m0 op)).opcode = true ∧
      (getEnt m0 (redirectOp m0 op)).id ∈ fwdIds st)

theorem TInv.init (m0 : SPIRVModule) : TInv m0 { m := m0 } := by
  refine ⟨⟨[], by simp⟩, rfl, ?_, ?_, ?_, ?_⟩
  · intro x hx
    rcases hx with h | h | h | h <;> simp at h
  · intro k hk x hx
    have h3 : k ≤ 3 := hk
    interval_cases k <;> simp [bucketL] at hx
  · intro x _ hv
    simp [getSt, alookup] at hv
  · intro x hx
    rcases hx with h | h | h | h <;> simp at h

theorem appMem_setSt (st : TS) (i : Nat) (s : DFSState) (x : Nat) :
    appMem (setSt st i s) x ↔ appMem st x := Iff.rfl

theorem TInv.setSt_nonvis {m0 : SPIRVModule} {st : TS} (inv : TInv m0 st)
    (i : Nat) {s : DFSState} (hs : s ≠ DFSState.Visited) :
    TInv m0 (setSt st i s) := by
  refine ⟨inv.harena, inv.hmap, inv.lt, inv.rk, ?_, inv.ord⟩
  intro x hx hv
  by_cases hxi : x = i
  · subst hxi
    rw [getSt_setSt_self] at hv
    exact absurd hv hs
  · rw [getSt_setSt_ne st i x s hxi] at hv
    exact inv.vis x hx hv

theorem TInv.setSt_vis {m0 : SPIRVModule} {st : TS} (inv : TInv m0 st)
    {i : Nat} (hi : appMem st i) (s : DFSState) :
    TInv m0 (setSt st i s) := by
  refine ⟨inv.harena, inv.hmap, inv.lt, inv.rk, ?_, inv.ord⟩
  intro x hx hv
  by_cases hxi : x = i
  · subst hxi
    exact hi
  · rw [getSt_setSt_ne st i x s hxi] at hv
    exact inv.vis x hx hv

theorem TInv.breakCyc {m0 : SPIRVModule} {st : TS} (inv : TInv m0 st)
    (i : Nat) : TInv m0 (breakCycle st i) := by
  obtain ⟨h1, h2, h3, h4, h5, ⟨u6, h6⟩, h7, ⟨u8, h8⟩, _⟩ := breakCycle_facts st i
  have hbuck : ∀ k, bucketL (breakCycle st i) k = bucketL st k := by
    intro k
    unfold bucketL
    match k with
    | 0 => exact h1
    | 1 => exact h2
    | 2 => exact h3
    | Nat.succ (Nat.succ (Nat.succ _)) => exact h4
  have happ : ∀ x, appMem (breakCycle st i) x ↔ appMem st x := by
    intro x
    unfold appMem
    rw [h1, h2, h3, h4]
  refine ⟨?_, ?_, ?_, ?_, ?_, ?_⟩
  · obtain ⟨u0, h0⟩ := inv.harena
    exact ⟨u0 ++ u8, by simp [h8, h0]⟩
  · rw [h7, inv.hmap]
  · intro x hx
    exact inv.lt x ((happ x).mp hx)
  · intro k hk x hx
    rw [hbuck k] at hx
    exact inv.rk k hk x hx
  · intro x hx hv
    rw [h5] at hv
    exact (happ x).mpr (inv.vis x hx hv)
  · intro x hx op hop
    rcases inv.ord x ((happ x).mp hx) op hop with ⟨hm, hidx⟩ | ⟨hp, hf⟩
    · exact Or.inl ⟨(happ _).mpr hm, by rw [hbuck]; exact hidx⟩
    · refine Or.inr ⟨hp, ?_⟩
      simp [fwdIds, h6] at hf ⊢
      exact Or.inl hf

theorem appMem_bucket {m0 : SPIRVModule} {st : TS} (inv : TInv m0 st) {y : Nat}
    (hy : appMem st y) : y ∈ bucketL st (rankOf m0 y) := by
  rcases hy with h | h | h | h
  · rw [inv.rk 0 (by omega) y h]
    exact h
  · rw [inv.rk 1 (by omega) y h]
    exact h
  · rw [inv.rk 2 (by omega) y h]
    exact h
  · rw [inv.rk 3 (by omega) y h]
    exact h

theorem not_appMem_bucket {st : TS} {y : Nat} (h : ¬ appMem st y) (k : Nat) :
    y ∉ bucketL st k := by
  intro hm
  apply h
  rcases k with _ | _ | _ | n <;> simp [bucketL] at hm <;> unfold appMem <;> tauto

theorem TInv.classifyStep {m0 : SPIRVModule} {st : TS} (wf : SortWF m0)
    (inv : TInv m0 st) {i : Nat} (hi : i < m0.arena.length)
    (hsat : ∀ op ∈ nonLitOps m0 i, opSat m0 st (redirectOp m0 op)) :
    TInv m0 (classify st i) ∧ appMem (classify st i) i := by
  have hrk : rankOf st.m i = rankOf m0 i := rankOf_prefix inv.harena wf hi
  have hbs : bucketL (classify st i) (rankOf m0 i) =
      bucketL st (rankOf m0 i) ++ [i] := by
    rw [← hrk]
    exact classify_bucket_self st i
  have hbne : ∀ k, k ≤ 3 → k ≠ rankOf m0 i →
      bucketL (classify st i) k = bucketL st k := by
    intro k hk hne
    exact classify_bucket_ne st i hk (by rw [hrk]; exact hne)
  have happ : ∀ x, appMem (classify st i) x ↔ (appMem st x ∨ x = i) := by
    intro x
    have h3 := rank_le3 st.m i
    obtain ⟨k, hk⟩ : ∃ k, rankOf st.m i = k := ⟨_, rfl⟩
    rw [hk] at h3
    unfold classify appMem
    rw [hk]
    interval_cases k <;> simp [List.mem_append] <;> tauto
  have hle := TSLe_classify st i
  refine ⟨⟨?_, ?_, ?_, ?_, ?_, ?_⟩, (happ i).mpr (Or.inr rfl)⟩
  · rw [classify_m]
    exact inv.harena
  · rw [classify_m]
    exact inv.hmap
  · intro x hx
    rcases (happ x).mp hx with h | rfl
    · exact inv.lt x h
    · exact hi
  · intro k hk x hx
    by_cases hkr : k = rankOf m0 i
    · subst hkr
      rw [hbs] at hx
      rcases List.mem_append.mp hx with h | h
      · exact inv.rk _ hk x h
      · simp at h
        subst h
        rfl
    · rw [hbne k hk hkr] at hx
      exact inv.rk k hk x hx
  · intro x hx hv
    rw [classify_smap] at hv
    exact appMem_mono hle (inv.vis x hx hv)
  · intro x hx op hop
    have hfw : fwdIds (classify st i) = fwdIds st := by
      simp [fwdIds, classify_fwdSet]
    by_cases hold : appMem st x
    · rcases inv.ord x hold op hop with ⟨hm, hidx⟩ | ⟨hp, hf⟩
      · refine Or.inl ⟨appMem_mono hle hm, ?_⟩
        intro hre
        have hx3 := rank_le3 m0 x
        by_cases hxr : rankOf m0 x = rankOf m0 i
        · have hxb : x ∈ bucketL st (rankOf m0 x) := appMem_bucket inv hold
          have hrb : redirectOp m0 op ∈ bucketL st (rankOf m0 x) := by
            rw [← hre]
            exact appMem_bucket inv hm
          rw [hxr] at hxb hrb hidx
          rw [hxr, hbs, idxN_append_left _ hxb, idxN_append_left _ hrb]
          exact hidx (hre.trans hxr)
        · rw [hbne _ hx3 hxr]
          exact hidx hre
      · exact Or.inr ⟨hp, by rw [hfw]; exact hf⟩
    · have hxi : x = i := by
        rcases (happ x).mp hx with h | h
        · exact absurd h hold
        · exact h
      subst hxi
      rcases hsat op hop with hm | ⟨hp, hf⟩
      · refine Or.inl ⟨appMem_mono hle hm, ?_⟩
        intro hre
        have hrb : redirectOp m0 op ∈ bucketL st (rankOf m0 x) := by
          rw [← hre]
          exact appMem_bucket inv hm
        have hnib : x ∉ bucketL st (rankOf m0 x) := not_appMem_bucket hold _
        rw [hbs, idxN_append_left _ hrb, idxN_append_right _ hnib]
        have := idxN_lt_length hrb
        simp [idxN]
        omega
      · exact Or.inr ⟨hp, by rw [hfw]; exact hf⟩

theorem visit_spec (m0 : SPIRVModule) (wf : SortWF m0) : ∀ fuel : Nat,
    (∀ i st out, i < m0.arena.length → TInv m0 st → visit fuel i st = some out →
      TInv m0 out.2 ∧ TSLe st out.2 ∧ (out.1 = false → opSat m0 out.2 i)) ∧
    (∀ ops st out, (∀ o ∈ ops, opOK m0 o) → TInv m0 st →
      visitList fuel ops st = some out →
      TInv m0 out.2 ∧ TSLe st out.2 ∧
      (out.1 = false → ∀ o ∈ ops, opSat m0 out.2 (redirectOp m0 o))) := by
  intro fuel
  induction fuel with
  | zero =>
      constructor
      · intro i st out _ _ hv
        simp [visit] at hv
      · intro ops st out _ _ hv
        simp [visitList] at hv
  | succ f ih =>
      obtain ⟨ihV, ihL⟩ := ih
      constructor
      · intro i st out hi inv hv
        have hops : nonLitOps st.m i = nonLitOps m0 i := nonLitOps_prefix inv.harena hi
        simp only [visit] at hv
        rcases hst : getSt st.smap i with _ | _ | _
        · rw [hst] at hv
          dsimp only at hv
          have inv1 := inv.setSt_nonvis i (show DFSState.Discovered ≠ DFSState.Visited by decide)
          rcases hvl : visitList f (nonLitOps (setSt st i DFSState.Discovered).m i) (setSt st i DFSState.Discovered) with _ | ⟨b, st2⟩
          · rw [hvl] at hv
            cases hv
          · rw [hvl] at hv
            have hOKops : ∀ o ∈ nonLitOps (setSt st i DFSState.Discovered).m i, opOK m0 o := by
              intro o ho
              rw [setSt_m] at ho
              rw [hops] at ho
              exact opOK_of_wf wf hi ho
            obtain ⟨inv2, le12, hsat2⟩ := ihL _ _ _ hOKops inv1 hvl
            cases b with
            | true =>
                dsimp only at hv
                have hinv3 := inv2.setSt_nonvis i (show DFSState.Unvisited ≠ DFSState.Visited by decide)
                by_cases hptr : isPtrOpcode (getEnt (setSt st2 i DFSState.Unvisited).m i).opcode = true
                · rw [if_pos hptr] at hv
                  obtain rfl := Option.some.inj hv
                  refine ⟨hinv3.breakCyc i, ?_, ?_⟩
                  · exact ((TSLe_setSt st i _).trans le12).trans
                      ((TSLe_setSt st2 i _).trans (TSLe_breakCycle _ i))
                  · intro _
                    right
                    have hge : getEnt (setSt st2 i DFSState.Unvisited).m i = getEnt m0 i :=
                      getEnt_prefix inv2.harena hi
                    constructor
                    · rw [← hge]
                      exact hptr
                    · have hbc := (breakCycle_facts (setSt st2 i DFSState.Unvisited) i).2.2.2.2.2.2.2.2
                      rw [hge] at hbc
                      exact hbc
                · rw [if_neg hptr] at hv
                  obtain rfl := Option.some.inj hv
                  refine ⟨hinv3, ((TSLe_setSt st i _).trans le12).trans (TSLe_setSt st2 i _), ?_⟩
                  intro h
                  cases h
            | false =>
                dsimp only at hv
                obtain rfl := Option.some.inj hv
                have hsat' : ∀ op ∈ nonLitOps m0 i, opSat m0 st2 (redirectOp m0 op) := by
                  intro op hop
                  apply hsat2 rfl
                  rw [setSt_m, hops]
                  exact hop
                obtain ⟨inv3, happ3⟩ := inv2.classifyStep wf hi hsat'
                refine ⟨inv3.setSt_vis happ3 _, ?_, ?_⟩
                · exact ((TSLe_setSt st i _).trans le12).trans
                    ((TSLe_classify st2 i).trans (TSLe_setSt _ i _))
                · intro _
                  exact Or.inl happ3
        · rw [hst] at hv
          dsimp only at hv
          obtain rfl := Option.some.inj hv
          refine ⟨inv, TSLe.refl st, ?_⟩
          intro h
          cases h
        · rw [hst] at hv
          dsimp only at hv
          obtain rfl := Option.some.inj hv
          refine ⟨inv, TSLe.refl st, ?_⟩
          intro _
          exact Or.inl (inv.vis i hi hst)
      · intro ops st out hOK inv hv
        cases ops with
        | nil =>
            simp only [visitList] at hv
            obtain rfl := Option.some.inj hv
            refine ⟨inv, TSLe.refl st, ?_⟩
            intro _ o ho
            simp at ho
        | cons o rest =>
            simp only [visitList] at hv
            have hoOK : opOK m0 o := hOK o (List.mem_cons_self o rest)
            have hra := redirect_agree inv.harena inv.hmap hoOK wf
            by_cases hvis : getSt st.smap (redirectOp st.m o) = DFSState.Visited
            · rw [if_pos hvis] at hv
              obtain ⟨inv', le', hsat'⟩ :=
                ihL rest st out (fun o' ho' => hOK o' (List.mem_cons_of_mem _ ho')) inv hv
              refine ⟨inv', le', ?_⟩
              intro hb o' ho'
              rcases List.mem_cons.mp ho' with rfl | ho'
              · have hmem : appMem st (redirectOp m0 o') := by
                  apply inv.vis _ hra.2
                  rw [← hra.1]
                  exact hvis
                exact opSat_mono le' (Or.inl hmem)
              · exact hsat' hb o' ho'
            · rw [if_neg hvis] at hv
              rcases hvv : visit f (redirectOp st.m o) st with _ | ⟨b', st'⟩
              · rw [hvv] at hv
                cases hv
              · rw [hvv] at hv
                rw [hra.1] at hvv
                obtain ⟨inv', le', hsato⟩ := ihV _ st (b', st') hra.2 inv hvv
                cases b' with
                | true =>
                    dsimp only at hv
                    obtain rfl := Option.some.inj hv
                    refine ⟨inv', le', ?_⟩
                    intro h
                    cases h
                | false =>
                    dsimp only at hv
                    obtain ⟨inv'', le'', hsat''⟩ :=
                      ihL rest st' out (fun o' ho' => hOK o' (List.mem_cons_of_mem _ ho')) inv' hv
                    refine ⟨inv'', le'.trans le'', ?_⟩
                    intro hb o' ho'
                    rcases List.mem_cons.mp ho' with rfl | ho'
                    · exact opSat_mono le'' (hsato rfl)
                    · exact hsat'' hb o' ho'

theorem mem_insById {m : SPIRVModule} {x y : Nat} {l : List Nat}
    (h : y ∈ insById m x l) : y = x ∨ y ∈ l := by
  induction l with
  | nil => simpa [insById] using h
  | cons a t ih =>
      unfold insById at h
      by_cases hc : (getEnt m x).id ≤ (getEnt m a).id
      · rw [if_pos hc] at h
        rcases List.mem_cons.mp h with rfl | h2
        · exact Or.inl rfl
        · exact Or.inr h2
      · rw [if_neg hc] at h
        rcases List.mem_cons.mp h with rfl | h2
        · exact Or.inr (List.mem_cons_self _ _)
        · rcases ih h2 with h3 | h3
          · exact Or.inl h3
          · exact Or.inr (List.mem_cons_of_mem _ h3)

theorem mem_insSort {m : SPIRVModule} {y : Nat} {l : List Nat}
    (h : y ∈ insSortByIds m l) : y ∈ l := by
  induction l with
  | nil => simp [insSortByIds] at h
  | cons a t ih =>
      unfold insSortByIds at h
      rcases mem_insById h with rfl | h2
      · exact List.mem_cons_self _ _
      · exact List.mem_cons_of_mem _ (ih h2)

theorem sortLoop_spec (m0 : SPIRVModule) (wf : SortWF m0) (fuel : Nat) :
    ∀ roots st st', (∀ r ∈ roots, r < m0.arena.length) → TInv m0 st →
      sortLoop fuel roots st = SortOut.done st' → TInv m0 st' := by
  intro roots
  induction roots with
  | nil =>
      intro st st' _ inv h
      simp [sortLoop] at h
      rw [← h]
      exact inv
  | cons r rs ih =>
      intro st st' hlt inv h
      unfold sortLoop at h
      rcases hvv : visit fuel r st with _ | ⟨b, st2⟩
      · rw [hvv] at h
        cases h
      · rw [hvv] at h
        cases b with
        | true =>
            dsimp only at h
            cases h
        | false =>
            dsimp only at h
            obtain ⟨inv2, _, _⟩ := (visit_spec m0 wf fuel).1 r st (false, st2)
              (hlt r (List.mem_cons_self r rs)) inv hvv
            exact ih st2 st' (fun r' hr' => hlt r' (List.mem_cons_of_mem _ hr')) inv2 h

theorem idxN_stream {st : TS} {x k : Nat} (hk : k ≤ 3)
    (hin : x ∈ bucketL st k)
    (hnot : ∀ j, j ≤ 3 → j ≠ k → x ∉ bucketL st j) :
    idxN (sortedStream st) x = offL st k + idxN (bucketL st k) x := by
  unfold sortedStream
  interval_cases k
  · simp only [bucketL] at hin ⊢
    rw [idxN_append_left _ hin]
    simp [offL]
  · have h0 : x ∉ st.tiVec := by
      have := hnot 0 (by omega) (by omega)
      simpa [bucketL] using this
    simp only [bucketL] at hin ⊢
    rw [idxN_append_right _ h0, idxN_append_left _ hin]
    simp [offL]
  · have h0 : x ∉ st.tiVec := by
      have := hnot 0 (by omega) (by omega)
      simpa [bucketL] using this
    have h1 : x ∉ st.ciVec := by
      have := hnot 1 (by omega) (by omega)
      simpa [bucketL] using this
    simp only [bucketL] at hin ⊢
    rw [idxN_append_right _ h0, idxN_append_right _ h1, idxN_append_left _ hin]
    simp [offL]
    omega
  · have h0 : x ∉ st.tiVec := by
      have := hnot 0 (by omega) (by omega)
      simpa [bucketL] using this
    have h1 : x ∉ st.ciVec := by
      have := hnot 1 (by omega) (by omega)
      simpa [bucketL] using this
    have h2 : x ∉ st.tVec := by
      have := hnot 2 (by omega) (by omega)
      simpa [bucketL] using this
    simp only [bucketL] at hin ⊢
    rw [idxN_append_right _ h0, idxN_append_right _ h1, idxN_append_right _ h2]
    simp [offL]
    omega

theorem stream_pos_lt {st : TS} {r x kr kx : Nat}
    (hkr3 : kr ≤ 3) (hkx3 : kx ≤ 3) (hle : kr ≤ kx)
    (hr : r ∈ bucketL st kr) (hx : x ∈ bucketL st kx)
    (heq : kr = kx → idxN (bucketL st kx) r < idxN (bucketL st kx) x)
    (hnr : ∀ j, j ≤ 3 → j ≠ kr → r ∉ bucketL st j)
    (hnx : ∀ j, j ≤ 3 → j ≠ kx → x ∉ bucketL st j) :
    idxN (sortedStream st) r < idxN (sortedStream st) x := by
  rw [idxN_stream hkr3 hr hnr, idxN_stream hkx3 hx hnx]
  rcases Nat.lt_or_ge kr kx with hlt | hge
  · have hrl : idxN (bucketL st kr) r < (bucketL st kr).length := idxN_lt_length hr
    have hoff : offL st kr + (bucketL st kr).length ≤ offL st kx := by
      interval_cases kr <;> interval_cases kx <;>
        (try simp only [offL, bucketL]) <;> omega
    omega
  · have hkk : kr = kx := Nat.le_antisymm hle hge
    subst hkk
    have := heq rfl
    omega

theorem appMem_of_stream {st : TS} {x : Nat} (h : x ∈ sortedStream st) :
    appMem st x := by
  unfold sortedStream at h
  simp [List.mem_append] at h
  unfold appMem
  tauto

/-- C1 (amended): for a module that is well-formed for the topological sort —
in particular one satisfying the section-monotonicity side condition that no
entity's redirected operand ranks into a strictly later output section than
the entity itself, a condition the source does not enforce (see the
counterexample) — every entity emitted in the concatenated
TypeIntVec+ConstIntVec+TypeVec+ConstAndVarVec stream of a completed run has
each of its non-literal operands (after OpTypeForwardPointer redirection)
strictly earlier in that stream, except where the operand is a pointer type
whose id received a synthesized ForwardPointer declaration. -/
theorem sorted_stream_operands_precede (m : SPIRVModule) (fuel : Nat)
    (hwf : SortWF m) (ix x : Nat)
    (hget : (runStream m fuel).get? ix = some x) :
    ∀ op ∈ nonLitOps m x,
      idxN (runStream m fuel) (redirectOp m op) < ix ∨
      (isPtrOpcode (getEnt m (redirectOp m op)).opcode = true ∧
        (getEnt m (redirectOp m op)).id ∈ runFwdPids m fuel) := by
  intro op hop
  unfold runStream runFwdPids at *
  rcases hrun : runSort m fuel with _ | _ | st
  · rw [hrun] at hget
    simp at hget
  · rw [hrun] at hget
    simp at hget
  · rw [hrun] at hget
    dsimp only at hget ⊢
    have hroots : ∀ r ∈ sortRootsOf m, r < m.arena.length := by
      intro r hr
      exact hwf.rootsLt r (mem_insSort hr)
    have inv : TInv m st := by
      unfold runSort at hrun
      exact sortLoop_spec m hwf fuel (sortRootsOf m) { m := m } st hroots
        (TInv.init m) hrun
    have hxapp : appMem st x := appMem_of_stream (mem_of_get hget)
    have hxlt : x < m.arena.length := inv.lt x hxapp
    have hxle : idxN (sortedStream st) x ≤ ix := idxN_le_of_get hget
    rcases inv.ord x hxapp op hop with ⟨hm, hidx⟩ | ⟨hp, hf⟩
    · left
      have hrlt : idxN (sortedStream st) (redirectOp m op) <
          idxN (sortedStream st) x := by
        apply stream_pos_lt (rank_le3 m (redirectOp m op)) (rank_le3 m x)
          (hwf.secMono x hxlt op hop) (appMem_bucket inv hm)
          (appMem_bucket inv hxapp) hidx
        · intro j hj hne hmem
          exact hne (inv.rk j hj _ hmem).symm
        · intro j hj hne hmem
          exact hne (inv.rk j hj _ hmem).symm
      omega
    · right
      exact ⟨hp, hf⟩

set_option synthInstance.maxSize 512 in
theorem sorted_stream_operands_precede_witness :
    (runStream mGood 40).get? 1 = some 1 ∧ 0 ∈ nonLitOps mGood 1 ∧
    (idxN (runStream mGood 40) (redirectOp mGood 0) < 1 ∨
      (isPtrOpcode (getEnt mGood (redirectOp mGood 0)).opcode = true ∧
        (getEnt mGood (redirectOp mGood 0)).id ∈ runFwdPids mGood 40)) := by
  refine ⟨by decide, by decide, ?_⟩
  exact sorted_stream_operands_precede mGood 40
    ⟨by decide, by decide, by decide, by decide, by decide, by decide⟩
    1 1 (by decide) 0 (by decide)
